import Mathlib

/-!
Verification of the Token-Creator accounting core against its specification.

The embedding covers:
* the OpenZeppelin ERC-20 storage primitives the contracts build on
  (`_update`, `_transfer`, `_mint`, `_spendAllowance`);
* `contracts/SecureToken.sol` — the deployed token: burn/reflection/tax
  cascade on `transfer`/`transferFrom`, per-transfer reflection credits,
  `claimReflectionRewards`, `getPendingReflection` (namespace `SecureToken`);
* the token variant embedded in `bot/utils/contractFlattener.js` — the same
  cascade, but with pooled pro-rata reflection accounting: entitlement
  `holderBalance * contractBalance / totalSupply` against a per-holder
  high-water mark `_reflectionClaimed` (namespace `FlatToken`); this is the
  reflection design the specification's §4.3 describes;
* `contracts/TokenFactory.sol` — parameter validation and registry
  (namespace `TokenFactory`).

Machine integers: Solidity 0.8 uint256 arithmetic is checked (reverts on
overflow/underflow), and the quantities handled here are bounded by the
fixed initial supply, so amounts are modelled as `Nat` with the checks of
the source made explicit as `Except` failures.  The two `unchecked` blocks
in OpenZeppelin's `_update` cannot wrap because the subtracted value was
bounds-checked against the debited balance just before.
-/

namespace TokenCreator

/-- Account identifiers; `0` plays the role of Solidity's `address(0)`. -/
abbrev Addr := Nat

/-- The immutable per-token configuration established by the `SecureToken`
constructor: `taxPercent`, `taxWallet`, `REFLECTION_PERCENT`, `BURN_PERCENT`,
`HAS_REFLECTION`, `HAS_BURN`, plus the ERC-20 metadata and the token
contract's own address (`address(this)`, the reserve account). -/
structure Config where
  name : String
  symbol : String
  taxPercent : Nat
  taxWallet : Addr
  reflectionPercent : Nat
  burnPercent : Nat
  hasReflection : Bool
  hasBurn : Bool
  thisAddr : Addr

/-- Mutable contract storage: ERC-20 `_balances`, `_totalSupply`,
`_allowances`, and the reflection bookkeeping of both observed token
variants (`_reflectionBalance` / `_totalReflectionDistributed` from
`contracts/SecureToken.sol`, `_reflectionClaimed` from the flattened
variant).  Each variant only ever touches its own fields. -/
structure State where
  balances : Addr → Nat
  totalSupply : Nat
  allowances : Addr → Addr → Nat
  reflectionBalance : Addr → Nat
  totalReflectionDistributed : Nat
  reflectionClaimed : Addr → Nat

/-- The all-zero storage a fresh contract starts from. -/
def State.empty : State where
  balances := fun _ => 0
  totalSupply := 0
  allowances := fun _ _ => 0
  reflectionBalance := fun _ => 0
  totalReflectionDistributed := 0
  reflectionClaimed := fun _ => 0

namespace ERC20

/-- OpenZeppelin `ERC20._update(from, to, value)`: `from = 0` mints
(supply increases), `to = 0` burns (supply decreases); otherwise moves
value between balances, reverting with `ERC20InsufficientBalance` when
`from`'s balance is too small.  `_balances[address(0)]` is never written. -/
def _update (s : State) (a b : Addr) (value : Nat) : Except String State := do
  let s ←
    if a = 0 then
      pure { s with totalSupply := s.totalSupply + value }
    else
      let fromBalance := s.balances a
      if fromBalance < value then
        throw "ERC20InsufficientBalance"
      else
        pure { s with balances := Function.update s.balances a (fromBalance - value) }
  if b = 0 then
    pure { s with totalSupply := s.totalSupply - value }
  else
    pure { s with balances := Function.update s.balances b (s.balances b + value) }

/-- OpenZeppelin `ERC20._transfer`: rejects the zero address on either
end, then `_update`. -/
def _transfer (s : State) (a b : Addr) (value : Nat) : Except String State :=
  if a = 0 then throw "ERC20InvalidSender"
  else if b = 0 then throw "ERC20InvalidReceiver"
  else _update s a b value

/-- OpenZeppelin `ERC20._mint`. -/
def _mint (s : State) (account : Addr) (value : Nat) : Except String State :=
  if account = 0 then throw "ERC20InvalidReceiver"
  else _update s 0 account value

/-- Solidity's `type(uint256).max`, the sentinel for an infinite allowance. -/
def UINT256MAX : Nat := 2 ^ 256 - 1

/-- OpenZeppelin `ERC20._spendAllowance`: an allowance of
`type(uint256).max` is never decremented; otherwise the spend is checked
and deducted. -/
def _spendAllowance (s : State) (owner spender : Addr) (value : Nat) :
    Except String State :=
  let currentAllowance := s.allowances owner spender
  if currentAllowance ≠ UINT256MAX then
    if currentAllowance < value then
      throw "ERC20InsufficientAllowance"
    else
      pure { s with allowances :=
        (Function.update s.allowances owner
          (Function.update (s.allowances owner) spender (currentAllowance - value))) }
  else
    pure s

end ERC20

namespace SecureToken

/-- Constructor arguments of `SecureToken` (plus the fresh contract
address the EVM assigns to the new instance). -/
structure CtorArgs where
  name : String
  symbol : String
  initialSupply : Nat
  taxPercent : Nat
  taxWallet : Addr
  reflectionPercent : Nat
  burnPercent : Nat
  enableReflection : Bool
  enableBurn : Bool
  initialOwner : Addr
  thisAddr : Addr

/-- The `SecureToken` constructor (`contracts/SecureToken.sol`, lines
57–97): validates the fee policy in source order, then mints the entire
initial supply to the initial owner.  A failed `require` aborts the whole
deployment, so no token state exists on failure. -/
def constructor (a : CtorArgs) : Except String (Config × State) := do
  if ¬ a.taxPercent ≤ 100 then throw "Tax percent must be <= 100"
  else if ¬ a.reflectionPercent ≤ 100 then throw "Reflection percent must be <= 100"
  else if ¬ a.burnPercent ≤ 100 then throw "Burn percent must be <= 100"
  else if a.initialOwner = 0 then throw "Owner cannot be zero address"
  else if a.initialSupply = 0 then throw "Initial supply must be > 0"
  else if a.taxPercent > 0 ∧ a.taxWallet = 0 then
    throw "Tax wallet cannot be zero address when tax > 0"
  else if ¬ a.taxPercent + a.reflectionPercent + a.burnPercent ≤ 100 then
    throw "Total fees cannot exceed 100%"
  else
    let c : Config :=
      { name := a.name, symbol := a.symbol, taxPercent := a.taxPercent,
        taxWallet := a.taxWallet, reflectionPercent := a.reflectionPercent,
        burnPercent := a.burnPercent, hasReflection := a.enableReflection,
        hasBurn := a.enableBurn, thisAddr := a.thisAddr }
    let s ← ERC20._mint State.empty a.initialOwner a.initialSupply
    pure (c, s)

/-- Embedding of `SecureToken._addReflectionReward` (`contracts/SecureToken.sol`, lines
208–213): credits a pending reflection reward to `holder` and bumps the
lifetime distributed counter; a no-op when reflection is disabled or the
amount is zero. -/
def _addReflectionReward (c : Config) (s : State) (holder : Addr) (amount : Nat) :
    State :=
  if ¬ c.hasReflection ∨ amount = 0 then s
  else
    { s with
      reflectionBalance :=
        Function.update s.reflectionBalance holder (s.reflectionBalance holder + amount)
      totalReflectionDistributed := s.totalReflectionDistributed + amount }

/-- Embedding of `SecureToken.transfer` (`contracts/SecureToken.sol`, lines 104–148):
computes the burn → reflection → tax cascade on successively reduced nets,
then executes burn (`_update` to the zero address), reflection pooling
(to `address(this)` plus a credit to the recipient), tax, and the final
net movement.  Any failing sub-movement aborts the whole call. -/
def transfer (c : Config) (s : State) (sender dest : Addr) (amount : Nat) :
    Except String State := do
  let burnAmount : Nat :=
    if c.hasBurn ∧ sender ≠ 0 then amount * c.burnPercent / 100 else 0
  let net1 : Nat := amount - burnAmount
  let reflectionAmount : Nat :=
    if c.hasReflection ∧ sender ≠ 0 then net1 * c.reflectionPercent / 100 else 0
  let net2 : Nat := net1 - reflectionAmount
  let taxAmount : Nat :=
    if c.taxPercent > 0 ∧ c.taxWallet ≠ 0 ∧ sender ≠ c.taxWallet then
      net2 * c.taxPercent / 100
    else 0
  let netAmount : Nat := net2 - taxAmount
  let s ← (if burnAmount > 0 then ERC20._update s sender 0 burnAmount else pure s)
  let s ←
    (if reflectionAmount > 0 then do
      let s ← ERC20._transfer s sender c.thisAddr reflectionAmount
      pure (_addReflectionReward c s dest reflectionAmount)
    else pure s)
  let s ← (if taxAmount > 0 then ERC20._transfer s sender c.taxWallet taxAmount else pure s)
  ERC20._transfer s sender dest netAmount

/-- Embedding of `SecureToken.transferFrom` (`contracts/SecureToken.sol`, lines
156–202): spends the caller's allowance, then repeats the exact cascade of
`transfer` with `from` in the sender role. -/
def transferFrom (c : Config) (s : State) (spender a b : Addr) (amount : Nat) :
    Except String State := do
  let s ← ERC20._spendAllowance s a spender amount
  let burnAmount : Nat :=
    if c.hasBurn ∧ a ≠ 0 then amount * c.burnPercent / 100 else 0
  let net1 : Nat := amount - burnAmount
  let reflectionAmount : Nat :=
    if c.hasReflection ∧ a ≠ 0 then net1 * c.reflectionPercent / 100 else 0
  let net2 : Nat := net1 - reflectionAmount
  let taxAmount : Nat :=
    if c.taxPercent > 0 ∧ c.taxWallet ≠ 0 ∧ a ≠ c.taxWallet then
      net2 * c.taxPercent / 100
    else 0
  let netAmount : Nat := net2 - taxAmount
  let s ← (if burnAmount > 0 then ERC20._update s a 0 burnAmount else pure s)
  let s ←
    (if reflectionAmount > 0 then do
      let s ← ERC20._transfer s a c.thisAddr reflectionAmount
      pure (_addReflectionReward c s b reflectionAmount)
    else pure s)
  let s ← (if taxAmount > 0 then ERC20._transfer s a c.taxWallet taxAmount else pure s)
  ERC20._transfer s a b netAmount

/-- Embedding of `SecureToken.claimReflectionRewards` (`contracts/SecureToken.sol`,
lines 219–233): pays out the caller's accumulated per-transfer credit from
the contract's own balance and zeroes the credit. -/
def claimReflectionRewards (c : Config) (s : State) (sender : Addr) :
    Except String (Nat × State) := do
  if ¬ c.hasReflection then throw "Reflection is disabled for this token"
  else
    let rewards := s.reflectionBalance sender
    if rewards = 0 then throw "No reflection rewards to claim"
    else
      let s := { s with reflectionBalance := Function.update s.reflectionBalance sender 0 }
      let s ← ERC20._transfer s c.thisAddr sender rewards
      pure (rewards, s)

/-- Embedding of `SecureToken.getPendingReflection` (`contracts/SecureToken.sol`,
lines 238–245). -/
def getPendingReflection (c : Config) (s : State) (holder : Addr) : Nat :=
  if ¬ c.hasReflection then 0 else s.reflectionBalance holder

end SecureToken

namespace FlatToken

/-- Embedding of `claimReflectionRewards` of the token variant embedded in
`bot/utils/contractFlattener.js`: recomputes the holder's pro-rata
entitlement `holderBalance * contractBalance / totalSupply` from live
balances, pays the excess over the recorded high-water mark
`_reflectionClaimed`, and replaces the mark with the new entitlement. -/
def claimReflectionRewards (c : Config) (s : State) (sender : Addr) :
    Except String (Nat × State) := do
  if ¬ c.hasReflection then throw "Reflection is disabled for this token"
  else
    let holderBalance := s.balances sender
    if holderBalance = 0 then throw "You must hold tokens to claim reflection"
    else
      let totalSupply := s.totalSupply
      if totalSupply = 0 then throw "Total supply must be greater than 0"
      else
        let contractBalance := s.balances c.thisAddr
        if contractBalance = 0 then throw "No reflection rewards available"
        else
          let proportionalReflection := holderBalance * contractBalance / totalSupply
          let alreadyClaimed := s.reflectionClaimed sender
          let claimableAmount :=
            if proportionalReflection > alreadyClaimed then
              proportionalReflection - alreadyClaimed
            else 0
          if claimableAmount = 0 then throw "No reflection rewards to claim"
          else
            let s := { s with reflectionClaimed :=
              (Function.update s.reflectionClaimed sender proportionalReflection) }
            let s ← ERC20._transfer s c.thisAddr sender claimableAmount
            pure (claimableAmount, s)

/-- Embedding of `getPendingReflection` of the flattened variant: the identical
entitlement computation, read-only, returning `0` at every unmet
precondition instead of reverting. -/
def getPendingReflection (c : Config) (s : State) (holder : Addr) : Nat :=
  if ¬ c.hasReflection then 0
  else
    let holderBalance := s.balances holder
    if holderBalance = 0 then 0
    else
      let totalSupply := s.totalSupply
      if totalSupply = 0 then 0
      else
        let contractBalance := s.balances c.thisAddr
        if contractBalance = 0 then 0
        else
          let proportionalReflection := holderBalance * contractBalance / totalSupply
          let alreadyClaimed := s.reflectionClaimed holder
          if proportionalReflection > alreadyClaimed then
            proportionalReflection - alreadyClaimed
          else 0

end FlatToken

namespace TokenFactory

/-- Factory storage: the global append-only list of deployed ledgers and
the creator-indexed registry (`deployedTokens` / `creatorTokens`).  A
ledger's "address" is its index in `deployedTokens`. -/
structure FactoryState where
  deployedTokens : List (Config × State)
  creatorTokens : Addr → List Nat

/-- A factory with no deployments. -/
def FactoryState.empty : FactoryState where
  deployedTokens := []
  creatorTokens := fun _ => []

/-- Embedding of `TokenFactory.createToken` (`contracts/TokenFactory.sol`, lines
150–211): validates name, symbol and the fee percentages, deploys a
`SecureToken` (whose constructor re-validates and can itself revert), and
only then appends the new ledger to both registries.  Any failure aborts
the whole call, so no ledger and no registry entry survives a rejected
creation.  The fresh instance is assigned a nonzero contract address
(modelled as one past the registry length). -/
def createToken (fs : FactoryState) (caller : Addr)
    (name symbol : String) (initialSupply taxPercent : Nat) (taxWallet : Addr)
    (reflectionPercent burnPercent : Nat) (enableReflection enableBurn : Bool)
    (initialOwner : Addr) : Except String (FactoryState × Nat) := do
  if name.utf8ByteSize = 0 then throw "Name required"
  else if symbol.utf8ByteSize = 0 then throw "Symbol required"
  else if ¬ reflectionPercent ≤ 100 then throw "Reflection cannot exceed 100%"
  else if ¬ burnPercent ≤ 100 then throw "Burn cannot exceed 100%"
  else if ¬ taxPercent + reflectionPercent + burnPercent ≤ 100 then
    throw "Total fees (tax + reflection + burn) cannot exceed 100%"
  else
    let tokenAddr := fs.deployedTokens.length
    let r ← SecureToken.constructor
      { name := name, symbol := symbol, initialSupply := initialSupply,
        taxPercent := taxPercent, taxWallet := taxWallet,
        reflectionPercent := reflectionPercent, burnPercent := burnPercent,
        enableReflection := enableReflection, enableBurn := enableBurn,
        initialOwner := initialOwner, thisAddr := tokenAddr + 1 }
    pure ({ deployedTokens := fs.deployedTokens ++ [r],
            creatorTokens :=
              (Function.update fs.creatorTokens caller
                (fs.creatorTokens caller ++ [tokenAddr])) },
          tokenAddr)

end TokenFactory

namespace ERC20

/-- The state a successful `_update` produces when neither end is the zero
address: `value` is debited from `a` (checked) and credited to `b`. -/
def moveState (s : State) (a b : Addr) (value : Nat) : State :=
  let s1 := { s with balances := Function.update s.balances a (s.balances a - value) }
  { s1 with balances := Function.update s1.balances b (s1.balances b + value) }

/-- The state a successful `_update` produces when the destination is the
zero address: `value` is debited from `a` and removed from the supply. -/
def burnState (s : State) (a : Addr) (value : Nat) : State :=
  { s with balances := (Function.update s.balances a (s.balances a - value)),
           totalSupply := s.totalSupply - value }

end ERC20

namespace SecureToken

/-- The burn deduction `transfer` computes for a given sender and amount
(zero when burn is disabled or the sender is the zero address). -/
def burnPart (c : Config) (sender : Addr) (amount : Nat) : Nat :=
  if c.hasBurn ∧ sender ≠ 0 then amount * c.burnPercent / 100 else 0

/-- The reflection deduction `transfer` computes, taken on the post-burn
net. -/
def reflectPart (c : Config) (sender : Addr) (amount : Nat) : Nat :=
  if c.hasReflection ∧ sender ≠ 0 then
    (amount - burnPart c sender amount) * c.reflectionPercent / 100
  else 0

/-- The tax deduction `transfer` computes, taken on the
post-burn-post-reflection net; zero when the sender is the tax wallet. -/
def taxPart (c : Config) (sender : Addr) (amount : Nat) : Nat :=
  if c.taxPercent > 0 ∧ c.taxWallet ≠ 0 ∧ sender ≠ c.taxWallet then
    (amount - burnPart c sender amount - reflectPart c sender amount) * c.taxPercent / 100
  else 0

/-- The net the recipient finally receives from `transfer`. -/
def netPart (c : Config) (sender : Addr) (amount : Nat) : Nat :=
  amount - burnPart c sender amount - reflectPart c sender amount - taxPart c sender amount

end SecureToken

/-- Balance-book well-formedness over a finite footprint `A`: the zero
address is outside the footprint, every account outside it has balance 0,
and the balances over the footprint add up to the recorded total supply. -/
def BalInv (s : State) (A : Finset Addr) : Prop :=
  (0 : Addr) ∉ A ∧ (∀ x : Addr, x ∉ A → s.balances x = 0) ∧
    A.sum s.balances = s.totalSupply

/-- All ledger states reachable from a successful `SecureToken` deployment
with initial supply `init`, by any sequence of successful transfers and
reflection claims — the operation set of the specification's conservation
property. -/
inductive Reachable (c : Config) (init : Nat) : State → Prop where
  | create (a : SecureToken.CtorArgs) (s : State) :
      a.initialSupply = init → SecureToken.constructor a = Except.ok (c, s) →
      Reachable c init s
  | transfer (s s' : State) (sender dest : Addr) (amount : Nat) :
      Reachable c init s →
      SecureToken.transfer c s sender dest amount = Except.ok s' →
      Reachable c init s'
  | claim (s s' : State) (holder paid : Nat) :
      Reachable c init s →
      SecureToken.claimReflectionRewards c s holder = Except.ok (paid, s') →
      Reachable c init s'

/-- Example fee policy with burn, reflection and tax all applicable:
10% / 10% / 10%, reserve account 1, tax wallet 4. -/
def exCfg : Config :=
  { name := "TOK", symbol := "TOK", taxPercent := 10, taxWallet := 4,
    reflectionPercent := 10, burnPercent := 10, hasReflection := true,
    hasBurn := true, thisAddr := 1 }

/-- Example fee policy identical to `exCfg` except that the tax wallet is
account 2 (used to exercise the tax self-exemption). -/
def exCfgTW : Config := { exCfg with taxWallet := 2 }

/-- Example ledger of 1000 tokens all held by account 2. -/
def exState : State :=
  { State.empty with
    balances := (fun a => if a = 2 then 1000 else 0),
    totalSupply := 1000 }

/-- Reflection-only fee policy: 10% reflection, no burn, no tax,
reserve account 1. -/
def flatCfg : Config :=
  { name := "TOK", symbol := "TOK", taxPercent := 0, taxWallet := 0,
    reflectionPercent := 10, burnPercent := 0, hasReflection := true,
    hasBurn := false, thisAddr := 1 }

/-- Ledger whose reserve (account 1, balance 500) is large relative to
holder 2 (balance 10); account 3 holds the rest of the 1000 supply. -/
def poolBig : State :=
  { State.empty with
    balances := (fun a =>
      if a = 1 then 500 else if a = 2 then 10 else if a = 3 then 490 else 0),
    totalSupply := 1000 }

/-- Ledger whose reserve (account 1, balance 100) is at most holder 2's
balance (500); account 3 holds the rest of the 1000 supply. -/
def poolSmall : State :=
  { State.empty with
    balances := (fun a =>
      if a = 1 then 100 else if a = 2 then 500 else if a = 3 then 400 else 0),
    totalSupply := 1000 }

/-- Constructor arguments for a plain 1000-token deployment (no fees),
owner 2, contract address 1. -/
def consArgs : SecureToken.CtorArgs :=
  { name := "TOK", symbol := "TOK", initialSupply := 1000, taxPercent := 0,
    taxWallet := 0, reflectionPercent := 0, burnPercent := 0,
    enableReflection := false, enableBurn := false, initialOwner := 2,
    thisAddr := 1 }

/-- The fee policy `consArgs` deploys. -/
def consCfg : Config :=
  { name := "TOK", symbol := "TOK", taxPercent := 0, taxWallet := 0,
    reflectionPercent := 0, burnPercent := 0, hasReflection := false,
    hasBurn := false, thisAddr := 1 }

/-- The storage `consArgs` deploys: the whole supply minted to owner 2. -/
def consState : State :=
  { State.empty with
    balances := Function.update (fun _ => 0) 2 1000, totalSupply := 1000 }

/-- Binding a successful `Except` computation just applies the
continuation. -/
theorem exBind_ok {α β : Type} (x : α) (f : α → Except String β) :
    (Except.ok x >>= f) = f x := rfl

/-- Binding a failed `Except` computation propagates the error. -/
theorem exBind_err {α β : Type} (e : String) (f : α → Except String β) :
    ((Except.error e : Except String α) >>= f) = Except.error e := rfl

/-- In the `Except` monad, `pure` is `Except.ok`. -/
theorem exPure {α : Type} (x : α) : (pure x : Except String α) = Except.ok x := rfl

/-- A computation with `isOk` set produces some `ok` value. -/
theorem isOk_exists {α : Type} {x : Except String α} (h : x.isOk = true) :
    ∃ y, x = Except.ok y := by
  cases x with
  | error e => exact absurd h (by simp [Except.isOk, Except.toBool])
  | ok y => exact ⟨y, rfl⟩

/-- Inversion of binding a computation with a pure pairing continuation. -/
theorem bindPair_ok_inv {σ γ : Type} (x : Except String σ) (n v : γ) (s' : σ)
    (h : (x >>= fun t => pure (n, t)) = Except.ok (v, s')) :
    v = n ∧ x = Except.ok s' := by
  cases x with
  | error e => rw [exBind_err] at h; exact Except.noConfusion h
  | ok t =>
    rw [exBind_ok] at h
    have h2 : (n, t) = (v, s') := by
      have := h
      rw [exPure] at this
      exact Except.ok.inj this
    obtain ⟨hn, ht⟩ := Prod.mk.inj h2
    exact ⟨hn.symm, by rw [ht]⟩

/-- A burn movement (`_update` with destination 0) succeeds exactly when
the debited balance suffices, producing `burnState`. -/
theorem update_ok_burn (s : State) (a : Addr) (v : Nat) (ha : a ≠ 0)
    (hv : v ≤ s.balances a) :
    ERC20._update s a 0 v = Except.ok (ERC20.burnState s a v) := by
  unfold ERC20._update ERC20.burnState
  rw [if_neg ha, if_neg (Nat.not_lt.mpr hv)]
  rfl

/-- A balance movement (`_update` between nonzero accounts) succeeds
exactly when the debited balance suffices, producing `moveState`. -/
theorem update_ok_move (s : State) (a b : Addr) (v : Nat) (ha : a ≠ 0)
    (hb : b ≠ 0) (hv : v ≤ s.balances a) :
    ERC20._update s a b v = Except.ok (ERC20.moveState s a b v) := by
  unfold ERC20._update ERC20.moveState
  simp [ha, hb, Nat.not_lt.mpr hv]
  rfl

/-- An overdrawn `_update` from a nonzero account fails with the ERC-20
insufficient-balance error. -/
theorem update_err (s : State) (a b : Addr) (v : Nat) (ha : a ≠ 0)
    (hv : s.balances a < v) :
    ERC20._update s a b v = Except.error "ERC20InsufficientBalance" := by
  unfold ERC20._update
  rw [if_neg ha, if_pos hv]
  rfl

/-- A `_transfer` between nonzero accounts with sufficient balance
produces `moveState`. -/
theorem transfer_ok_move (s : State) (a b : Addr) (v : Nat) (ha : a ≠ 0)
    (hb : b ≠ 0) (hv : v ≤ s.balances a) :
    ERC20._transfer s a b v = Except.ok (ERC20.moveState s a b v) := by
  unfold ERC20._transfer
  rw [if_neg ha, if_neg hb]
  exact update_ok_move s a b v ha hb hv

/-- An overdrawn `_transfer` between nonzero accounts fails with the
ERC-20 insufficient-balance error. -/
theorem transfer_err (s : State) (a b : Addr) (v : Nat) (ha : a ≠ 0)
    (hb : b ≠ 0) (hv : s.balances a < v) :
    ERC20._transfer s a b v = Except.error "ERC20InsufficientBalance" := by
  unfold ERC20._transfer
  rw [if_neg ha, if_neg hb]
  exact update_err s a b v ha hv

/-- Inversion of a successful `_update` from a nonzero account: the check
passed and the result is `burnState` or `moveState` according to the
destination. -/
theorem update_ok_inv (s s' : State) (a b : Addr) (v : Nat) (ha : a ≠ 0)
    (h : ERC20._update s a b v = Except.ok s') :
    v ≤ s.balances a ∧
      s' = (if b = 0 then ERC20.burnState s a v else ERC20.moveState s a b v) := by
  by_cases hv : s.balances a < v
  · rw [update_err s a b v ha hv] at h
    exact Except.noConfusion h
  · have hv' : v ≤ s.balances a := Nat.not_lt.mp hv
    by_cases hb : b = 0
    · subst hb
      rw [update_ok_burn s a v ha hv'] at h
      refine ⟨hv', ?_⟩
      rw [if_pos rfl]
      exact (Except.ok.injEq _ _ ▸ h).symm
    · rw [update_ok_move s a b v ha hb hv'] at h
      refine ⟨hv', ?_⟩
      rw [if_neg hb]
      exact (Except.ok.injEq _ _ ▸ h).symm

/-- Inversion of a successful `_transfer`: both ends are nonzero, the
check passed, and the result is `moveState`. -/
theorem transfer_ok_inv (s s' : State) (a b : Addr) (v : Nat)
    (h : ERC20._transfer s a b v = Except.ok s') :
    a ≠ 0 ∧ b ≠ 0 ∧ v ≤ s.balances a ∧ s' = ERC20.moveState s a b v := by
  unfold ERC20._transfer at h
  by_cases ha : a = 0
  · rw [if_pos ha] at h; exact Except.noConfusion h
  · rw [if_neg ha] at h
    by_cases hb : b = 0
    · rw [if_pos hb] at h; exact Except.noConfusion h
    · rw [if_neg hb] at h
      obtain ⟨hv, hs⟩ := update_ok_inv s s' a b v ha h
      rw [if_neg hb] at hs
      exact ⟨ha, hb, hv, hs⟩

/-- Crediting a reflection reward leaves the balance book untouched. -/
theorem addReflection_balances (c : Config) (s : State) (h : Addr) (v : Nat) :
    (SecureToken._addReflectionReward c s h v).balances = s.balances := by
  unfold SecureToken._addReflectionReward
  split <;> rfl

/-- Crediting a reflection reward leaves the total supply untouched. -/
theorem addReflection_totalSupply (c : Config) (s : State) (h : Addr) (v : Nat) :
    (SecureToken._addReflectionReward c s h v).totalSupply = s.totalSupply := by
  unfold SecureToken._addReflectionReward
  split <;> rfl

/-- Inversion of a successful flattened-variant claim: every precondition
held, the payout is the recomputed entitlement minus the high-water mark,
and the final state is the mark replacement followed by the payout
movement from the reserve. -/
theorem flatClaim_ok_inv (c : Config) (s : State) (h : Addr) (v : Nat)
    (s' : State)
    (hok : FlatToken.claimReflectionRewards c s h = Except.ok (v, s')) :
    c.hasReflection = true ∧ s.balances h ≠ 0 ∧ s.totalSupply ≠ 0 ∧
      s.balances c.thisAddr ≠ 0 ∧ c.thisAddr ≠ 0 ∧ h ≠ 0 ∧
      s.reflectionClaimed h < s.balances h * s.balances c.thisAddr / s.totalSupply ∧
      v = s.balances h * s.balances c.thisAddr / s.totalSupply - s.reflectionClaimed h ∧
      v ≤ s.balances c.thisAddr ∧
      s' = ERC20.moveState
        { s with reflectionClaimed := (Function.update s.reflectionClaimed h
            (s.balances h * s.balances c.thisAddr / s.totalSupply)) }
        c.thisAddr h v := by
  unfold FlatToken.claimReflectionRewards at hok
  by_cases h1 : ¬ (c.hasReflection = true)
  · rw [if_pos h1] at hok; exact Except.noConfusion hok
  · rw [if_neg h1] at hok
    push_neg at h1
    by_cases h2 : s.balances h = 0
    · rw [if_pos h2] at hok; exact Except.noConfusion hok
    · rw [if_neg h2] at hok
      by_cases h3 : s.totalSupply = 0
      · rw [if_pos h3] at hok; exact Except.noConfusion hok
      · rw [if_neg h3] at hok
        by_cases h4 : s.balances c.thisAddr = 0
        · rw [if_pos h4] at hok; exact Except.noConfusion hok
        · rw [if_neg h4] at hok
          by_cases h5 : (if s.reflectionClaimed h <
              s.balances h * s.balances c.thisAddr / s.totalSupply then
                s.balances h * s.balances c.thisAddr / s.totalSupply -
                  s.reflectionClaimed h
              else 0) = 0
          · rw [if_pos h5] at hok; exact Except.noConfusion hok
          · rw [if_neg h5] at hok
            by_cases h6 : s.reflectionClaimed h <
                s.balances h * s.balances c.thisAddr / s.totalSupply
            · rw [if_pos h6] at h5 hok
              obtain ⟨hv, htr⟩ := bindPair_ok_inv _ _ _ _ hok
              obtain ⟨hth, hh0, hle, hts⟩ := transfer_ok_inv _ _ _ _ _ htr
              subst hv
              refine ⟨h1, h2, h3, h4, hth, hh0, h6, rfl, ?_, hts⟩
              simpa using hle
            · rw [if_neg h6] at h5
              exact absurd rfl h5
/-- C1: a successful claim (flattened variant, the design the spec's §4.3
describes) pays out exactly the entitlement
`floor(holderBalance * poolBalance / totalSupply)` — recomputed from the
holder's current balance and the reserve's current balance, not from any
per-transfer credit — minus the holder's `claimedHighWaterMark`, and then
replaces the mark with that entitlement rather than accumulating. -/
theorem claim_pays_entitlement_minus_highwater (c : Config) (s : State)
    (h : Addr)
    (hok : (FlatToken.claimReflectionRewards c s h).isOk = true)
    (hne : h ≠ c.thisAddr) :
    ∃ s', FlatToken.claimReflectionRewards c s h =
        Except.ok (s.balances h * s.balances c.thisAddr / s.totalSupply -
          s.reflectionClaimed h, s') ∧
      s'.reflectionClaimed h =
        s.balances h * s.balances c.thisAddr / s.totalSupply ∧
      s'.balances h = s.balances h +
        (s.balances h * s.balances c.thisAddr / s.totalSupply -
          s.reflectionClaimed h) ∧
      s'.balances c.thisAddr = s.balances c.thisAddr -
        (s.balances h * s.balances c.thisAddr / s.totalSupply -
          s.reflectionClaimed h) ∧
      s'.totalSupply = s.totalSupply := by
  obtain ⟨y, hres⟩ := isOk_exists hok
  obtain ⟨v, s'⟩ := y
  obtain ⟨h1, h2, h3, h4, h5, h6, hlt, hveq, hle, hs'⟩ :=
    flatClaim_ok_inv c s h v s' hres
  subst hveq
  refine ⟨s', hres, ?_, ?_, ?_, ?_⟩
  · rw [hs']
    simp [ERC20.moveState, Function.update_apply]
  · rw [hs']
    simp [ERC20.moveState, Function.update_apply, hne, Ne.symm hne]
  · rw [hs']
    simp [ERC20.moveState, Function.update_apply, hne, Ne.symm hne]
  · rw [hs']
    rfl

/-- Witness for C1: claiming on the big-pool example ledger. -/
theorem claim_pays_entitlement_minus_highwater_witness :
    ((FlatToken.claimReflectionRewards flatCfg poolBig 2).isOk = true ∧
      (2 : Addr) ≠ flatCfg.thisAddr) ∧
    (∃ s', FlatToken.claimReflectionRewards flatCfg poolBig 2 =
        Except.ok (poolBig.balances 2 * poolBig.balances flatCfg.thisAddr /
          poolBig.totalSupply - poolBig.reflectionClaimed 2, s') ∧
      s'.reflectionClaimed 2 =
        poolBig.balances 2 * poolBig.balances flatCfg.thisAddr /
          poolBig.totalSupply ∧
      s'.balances 2 = poolBig.balances 2 +
        (poolBig.balances 2 * poolBig.balances flatCfg.thisAddr /
          poolBig.totalSupply - poolBig.reflectionClaimed 2) ∧
      s'.balances flatCfg.thisAddr = poolBig.balances flatCfg.thisAddr -
        (poolBig.balances 2 * poolBig.balances flatCfg.thisAddr /
          poolBig.totalSupply - poolBig.reflectionClaimed 2) ∧
      s'.totalSupply = poolBig.totalSupply) :=
  ⟨⟨by decide, by decide⟩,
    claim_pays_entitlement_minus_highwater flatCfg poolBig 2 (by decide)
      (by decide)⟩

/-- C4: a claim (flattened variant) fails, leaving no new state, whenever
any precondition is unmet — reflection disabled, holder balance zero,
total supply zero, or reserve (pool) balance zero; in particular a zero
pool always makes the claim fail, and the `Nat`-checked movements never
underflow. -/
theorem claim_fails_on_unmet_precondition (c : Config) (s : State) (h : Addr)
    (hpre : c.hasReflection = false ∨ s.balances h = 0 ∨ s.totalSupply = 0 ∨
      s.balances c.thisAddr = 0) :
    ∃ e, FlatToken.claimReflectionRewards c s h = Except.error e := by
  cases hres : FlatToken.claimReflectionRewards c s h with
  | error e => exact ⟨e, rfl⟩
  | ok p =>
    have hok' : FlatToken.claimReflectionRewards c s h = Except.ok (p.1, p.2) :=
      hres
    obtain ⟨h1, h2, h3, h4, _⟩ := flatClaim_ok_inv c s h p.1 p.2 hok'
    rcases hpre with hp | hp | hp | hp
    · rw [h1] at hp; exact Bool.noConfusion hp
    · exact absurd hp h2
    · exact absurd hp h3
    · exact absurd hp h4

/-- Witness for C4: claiming on an empty ledger fails. -/
theorem claim_fails_on_unmet_precondition_witness :
    (flatCfg.hasReflection = false ∨ State.empty.balances 2 = 0 ∨
      State.empty.totalSupply = 0 ∨ State.empty.balances flatCfg.thisAddr = 0) ∧
    ∃ e, FlatToken.claimReflectionRewards flatCfg State.empty 2 =
      Except.error e :=
  ⟨by decide, claim_fails_on_unmet_precondition flatCfg State.empty 2 (by decide)⟩

/-- C7: the read-only probe `getPendingReflection` (flattened variant)
performs the identical entitlement computation a claim would perform —
it returns the amount a claim would pay, and `0` wherever the claim would
fail — and, being a pure function of the state, it mutates nothing, so
repeated peeks agree.  The side conditions say the holder and the reserve
are real (nonzero) accounts and the holder's balance does not exceed the
supply, which every reachable ledger satisfies. -/
theorem peek_matches_claim (c : Config) (s : State) (h : Addr)
    (hthis0 : c.thisAddr ≠ 0) (hh0 : h ≠ 0)
    (hbs : s.balances h ≤ s.totalSupply) :
    FlatToken.getPendingReflection c s h =
      ((FlatToken.claimReflectionRewards c s h).toOption.map Prod.fst).getD 0 := by
  simp only [FlatToken.getPendingReflection, FlatToken.claimReflectionRewards]
  by_cases h1 : ¬ (c.hasReflection = true)
  · rw [if_pos h1, if_pos h1]; rfl
  · rw [if_neg h1, if_neg h1]
    by_cases h2 : s.balances h = 0
    · rw [if_pos h2, if_pos h2]; rfl
    · rw [if_neg h2, if_neg h2]
      by_cases h3 : s.totalSupply = 0
      · rw [if_pos h3, if_pos h3]; rfl
      · rw [if_neg h3, if_neg h3]
        by_cases h4 : s.balances c.thisAddr = 0
        · rw [if_pos h4, if_pos h4]; rfl
        · rw [if_neg h4, if_neg h4]
          by_cases h6 : s.reflectionClaimed h <
              s.balances h * s.balances c.thisAddr / s.totalSupply
          · rw [if_pos h6]
            have hcl : ¬ (s.balances h * s.balances c.thisAddr / s.totalSupply -
                s.reflectionClaimed h = 0) := by omega
            rw [if_neg hcl]
            have he_le : s.balances h * s.balances c.thisAddr / s.totalSupply ≤
                s.balances c.thisAddr := by
              calc s.balances h * s.balances c.thisAddr / s.totalSupply
                  ≤ s.totalSupply * s.balances c.thisAddr / s.totalSupply :=
                    Nat.div_le_div_right (Nat.mul_le_mul_right _ hbs)
                _ = s.balances c.thisAddr :=
                    Nat.mul_div_cancel_left _ (Nat.pos_of_ne_zero h3)
            rw [transfer_ok_move
              { s with reflectionClaimed := (Function.update s.reflectionClaimed h
                  (s.balances h * s.balances c.thisAddr / s.totalSupply)) }
              c.thisAddr h
              (s.balances h * s.balances c.thisAddr / s.totalSupply -
                s.reflectionClaimed h)
              hthis0 hh0 (le_trans (Nat.sub_le _ _) he_le)]
            rfl
          · rw [if_neg h6]
            rw [if_pos rfl]
            rfl

/-- Witness for C7: peek on the big-pool example ledger equals the claim
payout. -/
theorem peek_matches_claim_witness :
    (flatCfg.thisAddr ≠ 0 ∧ (2 : Addr) ≠ 0 ∧
      poolBig.balances 2 ≤ poolBig.totalSupply) ∧
    FlatToken.getPendingReflection flatCfg poolBig 2 =
      ((FlatToken.claimReflectionRewards flatCfg poolBig 2).toOption.map
        Prod.fst).getD 0 :=
  ⟨⟨by decide, by decide, by decide⟩,
    peek_matches_claim flatCfg poolBig 2 (by decide) (by decide) (by decide)⟩

/-- Counterexample to C9 as stated: on the big-pool ledger (holder 2 owns
10 of 1000 tokens, the reserve holds 500), the first claim pays 5, and an
immediately repeated claim — with no intervening transfer — succeeds
again and pays 2, because the payout itself raises the holder's balance
and the entitlement is recomputed from live balances. -/
theorem double_claim_succeeds_counterexample :
    (FlatToken.claimReflectionRewards flatCfg poolBig 2).toOption.map
      Prod.fst = some 5 ∧
    ((FlatToken.claimReflectionRewards flatCfg poolBig 2).bind
      (fun p => FlatToken.claimReflectionRewards flatCfg p.2 2)).toOption.map
      Prod.fst = some 2 := by
  exact ⟨rfl, rfl⟩

/-- C9 amended: a successful claim immediately followed by another claim
(no intervening transfer) fails, provided the reserve balance does not
exceed the holder's balance at the first claim; without that bound the
second claim can succeed (see the counterexample). -/
theorem double_claim_fails_when_pool_bounded (c : Config) (s : State)
    (h : Addr)
    (hok : (FlatToken.claimReflectionRewards c s h).isOk = true)
    (hpool : s.balances c.thisAddr ≤ s.balances h)
    (hne : h ≠ c.thisAddr) :
    ∃ e, ((FlatToken.claimReflectionRewards c s h).bind
      (fun p => FlatToken.claimReflectionRewards c p.2 h)) = Except.error e := by
  obtain ⟨y, hres⟩ := isOk_exists hok
  obtain ⟨v, s1⟩ := y
  obtain ⟨h1, h2, h3, h4, h5, h6, hlt, hveq, hle, hs1⟩ :=
    flatClaim_ok_inv c s h v s1 hres
  rw [hres]
  show ∃ e, FlatToken.claimReflectionRewards c s1 h = Except.error e
  have hb1 : s1.balances h = s.balances h + v := by
    rw [hs1]; simp [ERC20.moveState, Function.update_apply, hne, Ne.symm hne]
  have hp1 : s1.balances c.thisAddr = s.balances c.thisAddr - v := by
    rw [hs1]; simp [ERC20.moveState, Function.update_apply, hne, Ne.symm hne]
  have hS1 : s1.totalSupply = s.totalSupply := by rw [hs1]; rfl
  have hc1 : s1.reflectionClaimed h =
      s.balances h * s.balances c.thisAddr / s.totalSupply := by
    rw [hs1]; simp [ERC20.moveState, Function.update_apply]
  have key : s1.balances h * s1.balances c.thisAddr ≤
      s.balances h * s.balances c.thisAddr := by
    rw [hb1, hp1]
    calc (s.balances h + v) * (s.balances c.thisAddr - v)
        = s.balances h * (s.balances c.thisAddr - v) +
            v * (s.balances c.thisAddr - v) := by ring
      _ ≤ s.balances h * (s.balances c.thisAddr - v) + v * s.balances h := by
            have : s.balances c.thisAddr - v ≤ s.balances h :=
              le_trans (Nat.sub_le _ _) hpool
            exact Nat.add_le_add_left (Nat.mul_le_mul_left v this) _
      _ = s.balances h * ((s.balances c.thisAddr - v) + v) := by ring
      _ = s.balances h * s.balances c.thisAddr := by
            rw [Nat.sub_add_cancel hle]
  have he' : s1.balances h * s1.balances c.thisAddr / s1.totalSupply ≤
      s.balances h * s.balances c.thisAddr / s.totalSupply := by
    rw [hS1]; exact Nat.div_le_div_right key
  simp only [FlatToken.claimReflectionRewards]
  rw [if_neg (not_not_intro h1)]
  rw [if_neg (show ¬ s1.balances h = 0 by rw [hb1]; omega)]
  rw [if_neg (show ¬ s1.totalSupply = 0 by rw [hS1]; exact h3)]
  by_cases hp0 : s1.balances c.thisAddr = 0
  · rw [if_pos hp0]
    exact ⟨_, rfl⟩
  · rw [if_neg hp0]
    have hnotlt : ¬ (s1.reflectionClaimed h <
        s1.balances h * s1.balances c.thisAddr / s1.totalSupply) := by
      rw [hc1]; exact Nat.not_lt.mpr he'
    rw [if_neg hnotlt]
    rw [if_pos rfl]
    exact ⟨_, rfl⟩

/-- Witness for the amended C9: on the small-pool ledger (holder 2 owns
500 of 1000, reserve holds 100) a second immediate claim fails. -/
theorem double_claim_fails_when_pool_bounded_witness :
    ((FlatToken.claimReflectionRewards flatCfg poolSmall 2).isOk = true ∧
      poolSmall.balances flatCfg.thisAddr ≤ poolSmall.balances 2 ∧
      (2 : Addr) ≠ flatCfg.thisAddr) ∧
    ∃ e, ((FlatToken.claimReflectionRewards flatCfg poolSmall 2).bind
      (fun p => FlatToken.claimReflectionRewards flatCfg p.2 2)) =
        Except.error e :=
  ⟨⟨by decide, by decide, by decide⟩,
    double_claim_fails_when_pool_bounded flatCfg poolSmall 2 (by decide)
      (by decide) (by decide)⟩

/-- Applying a percentage of at most 100 with floor division never
exceeds the base amount. -/
theorem pct_le (x p : Nat) (hp : p ≤ 100) : x * p / 100 ≤ x := by
  calc x * p / 100 ≤ x * 100 / 100 :=
        Nat.div_le_div_right (Nat.mul_le_mul_left x hp)
    _ = x := Nat.mul_div_cancel x (by omega)

/-- Burning zero is a no-op on the state. -/
theorem burnState_zero (s : State) (a : Addr) :
    ERC20.burnState s a 0 = s := by
  cases s
  simp [ERC20.burnState, Function.update_eq_self]

/-- Moving zero value is a no-op on the state. -/
theorem moveState_zero (s : State) (a b : Addr) :
    ERC20.moveState s a b 0 = s := by
  cases s
  simp [ERC20.moveState, Function.update_eq_self]

/-- Crediting a zero reflection reward is a no-op. -/
theorem addReflection_zero (c : Config) (s : State) (h : Addr) :
    SecureToken._addReflectionReward c s h 0 = s := by
  unfold SecureToken._addReflectionReward
  rw [if_pos (Or.inr rfl)]

/-- The guarded burn step of the transfer cascade always succeeds when the
debited balance suffices, and produces `burnState` uniformly (burning 0
changes nothing). -/
theorem stage_burn (s : State) (a : Addr) (v : Nat) (ha : a ≠ 0)
    (hv : v ≤ s.balances a) :
    (if 0 < v then ERC20._update s a 0 v else pure s) =
      Except.ok (ERC20.burnState s a v) := by
  by_cases hpos : 0 < v
  · rw [if_pos hpos]
    exact update_ok_burn s a v ha hv
  · rw [if_neg hpos]
    have h0 : v = 0 := by omega
    subst h0
    rw [burnState_zero]
    rfl

/-- The guarded reflection step of the transfer cascade always succeeds
when the debited balance suffices, and produces the pooled movement plus
the recipient credit uniformly. -/
theorem stage_reflect (c : Config) (s : State) (a dest : Addr) (v : Nat)
    (ha : a ≠ 0) (hthis0 : c.thisAddr ≠ 0) (hv : v ≤ s.balances a) :
    (if 0 < v then do
        let t ← ERC20._transfer s a c.thisAddr v
        pure (SecureToken._addReflectionReward c t dest v)
      else pure s) =
      Except.ok (SecureToken._addReflectionReward c
        (ERC20.moveState s a c.thisAddr v) dest v) := by
  by_cases hpos : 0 < v
  · rw [if_pos hpos, transfer_ok_move s a c.thisAddr v ha hthis0 hv]
    rfl
  · rw [if_neg hpos]
    have h0 : v = 0 := by omega
    subst h0
    rw [moveState_zero, addReflection_zero]
    rfl

/-- A guarded plain movement step of the transfer cascade always succeeds
when the debited balance suffices, and produces `moveState` uniformly. -/
theorem stage_move (s : State) (a b : Addr) (v : Nat) (ha : a ≠ 0)
    (hb : 0 < v → b ≠ 0) (hv : v ≤ s.balances a) :
    (if 0 < v then ERC20._transfer s a b v else pure s) =
      Except.ok (ERC20.moveState s a b v) := by
  by_cases hpos : 0 < v
  · rw [if_pos hpos]
    exact transfer_ok_move s a b v ha (hb hpos) hv
  · rw [if_neg hpos]
    have h0 : v = 0 := by omega
    subst h0
    rw [moveState_zero]
    rfl

/-- Reading an uninvolved account after a movement. -/
theorem moveState_balances_other (s : State) (a b x : Addr) (v : Nat)
    (hxa : x ≠ a) (hxb : x ≠ b) :
    (ERC20.moveState s a b v).balances x = s.balances x := by
  simp [ERC20.moveState, Function.update_apply, hxa, hxb]

/-- Reading the debited account after a movement to a different account. -/
theorem moveState_balances_src (s : State) (a b : Addr) (v : Nat)
    (hab : a ≠ b) :
    (ERC20.moveState s a b v).balances a = s.balances a - v := by
  simp [ERC20.moveState, Function.update_apply, hab]

/-- Reading the credited account after a movement from a different
account. -/
theorem moveState_balances_dst (s : State) (a b : Addr) (v : Nat)
    (hab : a ≠ b) :
    (ERC20.moveState s a b v).balances b = s.balances b + v := by
  simp [ERC20.moveState, Function.update_apply, Ne.symm hab]

/-- Reading an uninvolved account after a burn. -/
theorem burnState_balances_other (s : State) (a x : Addr) (v : Nat)
    (hxa : x ≠ a) :
    (ERC20.burnState s a v).balances x = s.balances x := by
  simp [ERC20.burnState, Function.update_apply, hxa]

/-- Reading the debited account after a burn. -/
theorem burnState_balances_src (s : State) (a : Addr) (v : Nat) :
    (ERC20.burnState s a v).balances a = s.balances a - v := by
  simp [ERC20.burnState, Function.update_apply]

/-- Minting to a nonzero account credits the account and grows the
supply. -/
theorem mint_ok (s : State) (account : Addr) (v : Nat) (hb : account ≠ 0) :
    ERC20._mint s account v = Except.ok
      { s with
        balances := (Function.update s.balances account (s.balances account + v)),
        totalSupply := s.totalSupply + v } := by
  unfold ERC20._mint ERC20._update
  simp [hb]
  rfl

/-- Inversion of a successful `SecureToken` deployment: every `require` of
the constructor held, and the resulting storage is the whole initial
supply minted to the initial owner. -/
theorem constructor_ok_inv (a : SecureToken.CtorArgs) (c : Config)
    (st : State) (h : SecureToken.constructor a = Except.ok (c, st)) :
    a.taxPercent ≤ 100 ∧ a.reflectionPercent ≤ 100 ∧ a.burnPercent ≤ 100 ∧
      a.initialOwner ≠ 0 ∧ a.initialSupply ≠ 0 ∧
      ¬(a.taxPercent > 0 ∧ a.taxWallet = 0) ∧
      a.taxPercent + a.reflectionPercent + a.burnPercent ≤ 100 ∧
      st.balances = Function.update (fun _ => 0) a.initialOwner a.initialSupply ∧
      st.totalSupply = a.initialSupply := by
  simp only [SecureToken.constructor] at h
  by_cases h1 : ¬ a.taxPercent ≤ 100
  · rw [if_pos h1] at h; exact Except.noConfusion h
  · rw [if_neg h1] at h
    by_cases h2 : ¬ a.reflectionPercent ≤ 100
    · rw [if_pos h2] at h; exact Except.noConfusion h
    · rw [if_neg h2] at h
      by_cases h3 : ¬ a.burnPercent ≤ 100
      · rw [if_pos h3] at h; exact Except.noConfusion h
      · rw [if_neg h3] at h
        by_cases h4 : a.initialOwner = 0
        · rw [if_pos h4] at h; exact Except.noConfusion h
        · rw [if_neg h4] at h
          by_cases h5 : a.initialSupply = 0
          · rw [if_pos h5] at h; exact Except.noConfusion h
          · rw [if_neg h5] at h
            by_cases h6 : a.taxPercent > 0 ∧ a.taxWallet = 0
            · rw [if_pos h6] at h; exact Except.noConfusion h
            · rw [if_neg h6] at h
              by_cases h7 : ¬ a.taxPercent + a.reflectionPercent +
                  a.burnPercent ≤ 100
              · rw [if_pos h7] at h; exact Except.noConfusion h
              · rw [if_neg h7] at h
                rw [mint_ok State.empty a.initialOwner a.initialSupply h4] at h
                obtain ⟨_, hst⟩ := bindPair_ok_inv _ _ _ _ h
                have hst' := Except.ok.inj hst
                push_neg at h1 h2 h3 h7
                refine ⟨h1, h2, h3, h4, h5, h6, h7, ?_, ?_⟩
                · rw [← hst']
                  simp [State.empty]
                · rw [← hst']
                  simp [State.empty]

/-- Inversion of a successful factory deployment: every validation of the
factory and of the `SecureToken` constructor it invokes held. -/
theorem createToken_ok_inv (fs : TokenFactory.FactoryState) (caller : Addr)
    (name symbol : String) (initialSupply taxPercent : Nat) (taxWallet : Addr)
    (reflectionPercent burnPercent : Nat) (eR eB : Bool) (initialOwner : Addr)
    (r : TokenFactory.FactoryState × Nat)
    (h : TokenFactory.createToken fs caller name symbol initialSupply
      taxPercent taxWallet reflectionPercent burnPercent eR eB initialOwner =
      Except.ok r) :
    name ≠ "" ∧ symbol ≠ "" ∧ reflectionPercent ≤ 100 ∧ burnPercent ≤ 100 ∧
      taxPercent + reflectionPercent + burnPercent ≤ 100 ∧ taxPercent ≤ 100 ∧
      initialOwner ≠ 0 ∧ initialSupply ≠ 0 ∧
      ¬(taxPercent > 0 ∧ taxWallet = 0) := by
  simp only [TokenFactory.createToken] at h
  by_cases h1 : name.utf8ByteSize = 0
  · rw [if_pos h1] at h; exact Except.noConfusion h
  · rw [if_neg h1] at h
    by_cases h2 : symbol.utf8ByteSize = 0
    · rw [if_pos h2] at h; exact Except.noConfusion h
    · rw [if_neg h2] at h
      by_cases h3 : ¬ reflectionPercent ≤ 100
      · rw [if_pos h3] at h; exact Except.noConfusion h
      · rw [if_neg h3] at h
        by_cases h4 : ¬ burnPercent ≤ 100
        · rw [if_pos h4] at h; exact Except.noConfusion h
        · rw [if_neg h4] at h
          by_cases h5 : ¬ taxPercent + reflectionPercent + burnPercent ≤ 100
          · rw [if_pos h5] at h; exact Except.noConfusion h
          · rw [if_neg h5] at h
            cases hcr : SecureToken.constructor
                { name := name, symbol := symbol,
                  initialSupply := initialSupply, taxPercent := taxPercent,
                  taxWallet := taxWallet,
                  reflectionPercent := reflectionPercent,
                  burnPercent := burnPercent, enableReflection := eR,
                  enableBurn := eB, initialOwner := initialOwner,
                  thisAddr := fs.deployedTokens.length + 1 } with
            | error e =>
              rw [hcr] at h
              exact Except.noConfusion h
            | ok pr =>
              obtain ⟨c0, st0⟩ := pr
              obtain ⟨htx, _, _, ho, hsupply, htw, _, _, _⟩ :=
                constructor_ok_inv _ _ _ hcr
              push_neg at h3 h4 h5
              refine ⟨?_, ?_, h3, h4, h5, htx, ho, hsupply, htw⟩
              · intro he; subst he; exact h1 rfl
              · intro he; subst he; exact h2 rfl

/-- C5: any factory creation whose parameters violate a constraint — in
particular percent sum above 100, but also empty name or symbol, zero
initial supply, a percent above 100, a null owner, or tax with no tax
account — fails, and in this functional embedding a failed
`createToken` returns no new factory state, so no ledger is constructed
and no registry entry (creator index or global index) is appended:
creation is all-or-nothing. -/
theorem createToken_rejects_invalid (fs : TokenFactory.FactoryState)
    (caller : Addr) (name symbol : String) (initialSupply taxPercent : Nat)
    (taxWallet : Addr) (reflectionPercent burnPercent : Nat) (eR eB : Bool)
    (initialOwner : Addr)
    (hviol : name = "" ∨ symbol = "" ∨ initialSupply = 0 ∨
      100 < taxPercent ∨ 100 < reflectionPercent ∨ 100 < burnPercent ∨
      initialOwner = 0 ∨ (0 < taxPercent ∧ taxWallet = 0) ∨
      100 < taxPercent + reflectionPercent + burnPercent) :
    ∃ e, TokenFactory.createToken fs caller name symbol initialSupply
      taxPercent taxWallet reflectionPercent burnPercent eR eB initialOwner =
      Except.error e := by
  cases hres : TokenFactory.createToken fs caller name symbol initialSupply
      taxPercent taxWallet reflectionPercent burnPercent eR eB initialOwner with
  | error e => exact ⟨e, rfl⟩
  | ok r =>
    obtain ⟨hn, hs, hr, hb, hsum, htx, ho, hsup, htw⟩ :=
      createToken_ok_inv fs caller name symbol initialSupply taxPercent
        taxWallet reflectionPercent burnPercent eR eB initialOwner r hres
    rcases hviol with hv | hv | hv | hv | hv | hv | hv | hv | hv
    · exact absurd hv hn
    · exact absurd hv hs
    · exact absurd hv hsup
    · omega
    · omega
    · omega
    · exact absurd hv ho
    · exact absurd hv htw
    · omega

/-- Witness for C5: a fee policy summing to 120% is rejected. -/
theorem createToken_rejects_invalid_witness :
    ("TOK" = "" ∨ "TOK" = "" ∨ (1000 : Nat) = 0 ∨ 100 < 50 ∨ 100 < 40 ∨
      100 < 30 ∨ (2 : Addr) = 0 ∨ ((0 : Nat) < 50 ∧ (4 : Addr) = 0) ∨
      100 < 50 + 40 + 30) ∧
    ∃ e, TokenFactory.createToken TokenFactory.FactoryState.empty 5 "TOK"
      "TOK" 1000 50 4 40 30 true true 2 = Except.error e :=
  ⟨by decide,
    createToken_rejects_invalid TokenFactory.FactoryState.empty 5 "TOK" "TOK"
      1000 50 4 40 30 true true 2 (by decide)⟩

/-- A positive computed tax deduction means the tax guard held: positive
tax percent, configured tax wallet, and a sender distinct from it. -/
theorem taxPart_pos_inv (c : Config) (sender : Addr) (amount : Nat)
    (h : 0 < SecureToken.taxPart c sender amount) :
    0 < c.taxPercent ∧ c.taxWallet ≠ 0 ∧ sender ≠ c.taxWallet := by
  unfold SecureToken.taxPart at h
  by_cases hg : 0 < c.taxPercent ∧ c.taxWallet ≠ 0 ∧ sender ≠ c.taxWallet
  · exact hg
  · rw [if_neg hg] at h; omega

/-- Symbolic execution of `SecureToken.transfer` for a sender with
sufficient balance and pairwise-distinct participant accounts: the call
succeeds, the sender pays the full amount, the recipient receives the
final net, the reserve receives the reflection deduction, the tax wallet
receives the tax deduction, and the supply drops by the burn deduction. -/
theorem transfer_exec (c : Config) (s : State) (sender dest : Addr)
    (amount : Nat)
    (hs0 : sender ≠ 0) (hd0 : dest ≠ 0) (hthis0 : c.thisAddr ≠ 0)
    (hsthis : sender ≠ c.thisAddr) (hsd : sender ≠ dest)
    (hdthis : dest ≠ c.thisAddr)
    (htw : 0 < SecureToken.taxPart c sender amount →
      dest ≠ c.taxWallet ∧ c.thisAddr ≠ c.taxWallet)
    (hb_le : SecureToken.burnPart c sender amount ≤ amount)
    (hr_le : SecureToken.reflectPart c sender amount ≤
      amount - SecureToken.burnPart c sender amount)
    (ht_le : SecureToken.taxPart c sender amount ≤
      amount - SecureToken.burnPart c sender amount -
        SecureToken.reflectPart c sender amount)
    (hbal : amount ≤ s.balances sender) :
    ∃ s', SecureToken.transfer c s sender dest amount = Except.ok s' ∧
      s'.balances sender = s.balances sender - amount ∧
      s'.balances dest = s.balances dest + SecureToken.netPart c sender amount ∧
      s'.balances c.thisAddr = s.balances c.thisAddr +
        SecureToken.reflectPart c sender amount ∧
      (0 < SecureToken.taxPart c sender amount →
        s'.balances c.taxWallet = s.balances c.taxWallet +
          SecureToken.taxPart c sender amount) ∧
      s'.totalSupply = s.totalSupply - SecureToken.burnPart c sender amount ∧
      (∀ x, x ≠ sender → x ≠ dest → x ≠ c.thisAddr →
        (0 < SecureToken.taxPart c sender amount → x ≠ c.taxWallet) →
        s'.balances x = s.balances x) := by
  have hnet : SecureToken.netPart c sender amount =
      amount - SecureToken.burnPart c sender amount -
        SecureToken.reflectPart c sender amount -
        SecureToken.taxPart c sender amount := rfl
  have hs1 : (ERC20.burnState s sender
      (SecureToken.burnPart c sender amount)).balances sender =
      s.balances sender - SecureToken.burnPart c sender amount :=
    burnState_balances_src s sender _
  have hstage1 := stage_burn s sender (SecureToken.burnPart c sender amount)
    hs0 (le_trans hb_le hbal)
  have hstage2 := stage_reflect c
    (ERC20.burnState s sender (SecureToken.burnPart c sender amount)) sender
    dest (SecureToken.reflectPart c sender amount) hs0 hthis0
    (by rw [hs1]; omega)
  have hs2 : (SecureToken._addReflectionReward c
      (ERC20.moveState
        (ERC20.burnState s sender (SecureToken.burnPart c sender amount))
        sender c.thisAddr (SecureToken.reflectPart c sender amount)) dest
      (SecureToken.reflectPart c sender amount)).balances sender =
      s.balances sender - SecureToken.burnPart c sender amount -
        SecureToken.reflectPart c sender amount := by
    rw [addReflection_balances, moveState_balances_src _ _ _ _ hsthis, hs1]
  have hstage3 := stage_move (SecureToken._addReflectionReward c
      (ERC20.moveState
        (ERC20.burnState s sender (SecureToken.burnPart c sender amount))
        sender c.thisAddr (SecureToken.reflectPart c sender amount)) dest
      (SecureToken.reflectPart c sender amount)) sender c.taxWallet
      (SecureToken.taxPart c sender amount) hs0
      (fun hpos => (taxPart_pos_inv c sender amount hpos).2.1)
      (by rw [hs2]; omega)
  have hs3 : (ERC20.moveState (SecureToken._addReflectionReward c
      (ERC20.moveState
        (ERC20.burnState s sender (SecureToken.burnPart c sender amount))
        sender c.thisAddr (SecureToken.reflectPart c sender amount)) dest
      (SecureToken.reflectPart c sender amount)) sender c.taxWallet
      (SecureToken.taxPart c sender amount)).balances sender =
      s.balances sender - SecureToken.burnPart c sender amount -
        SecureToken.reflectPart c sender amount -
        SecureToken.taxPart c sender amount := by
    by_cases htpos : 0 < SecureToken.taxPart c sender amount
    · rw [moveState_balances_src _ _ _ _
        (taxPart_pos_inv c sender amount htpos).2.2, hs2]
    · have ht0 : SecureToken.taxPart c sender amount = 0 := by omega
      rw [ht0, moveState_zero, hs2]
      omega
  have hstage4 := transfer_ok_move (ERC20.moveState
      (SecureToken._addReflectionReward c
        (ERC20.moveState
          (ERC20.burnState s sender (SecureToken.burnPart c sender amount))
          sender c.thisAddr (SecureToken.reflectPart c sender amount)) dest
        (SecureToken.reflectPart c sender amount)) sender c.taxWallet
      (SecureToken.taxPart c sender amount)) sender dest
      (SecureToken.netPart c sender amount) hs0 hd0
      (by rw [hs3, hnet]; omega)
  refine ⟨ERC20.moveState (ERC20.moveState (SecureToken._addReflectionReward c
      (ERC20.moveState
        (ERC20.burnState s sender (SecureToken.burnPart c sender amount))
        sender c.thisAddr (SecureToken.reflectPart c sender amount)) dest
      (SecureToken.reflectPart c sender amount)) sender c.taxWallet
      (SecureToken.taxPart c sender amount)) sender dest
      (SecureToken.netPart c sender amount), ?_, ?_, ?_, ?_, ?_, ?_, ?_⟩
  · simp only [SecureToken.transfer]
    rw [show (if c.hasBurn ∧ sender ≠ 0 then amount * c.burnPercent / 100
        else 0) = SecureToken.burnPart c sender amount from rfl]
    rw [show (if c.hasReflection ∧ sender ≠ 0 then
        (amount - SecureToken.burnPart c sender amount) *
          c.reflectionPercent / 100 else 0) =
        SecureToken.reflectPart c sender amount from rfl]
    rw [show (if 0 < c.taxPercent ∧ c.taxWallet ≠ 0 ∧ sender ≠ c.taxWallet
        then (amount - SecureToken.burnPart c sender amount -
          SecureToken.reflectPart c sender amount) * c.taxPercent / 100
        else 0) = SecureToken.taxPart c sender amount from rfl]
    rw [show amount - SecureToken.burnPart c sender amount -
        SecureToken.reflectPart c sender amount -
        SecureToken.taxPart c sender amount =
        SecureToken.netPart c sender amount from rfl]
    simp only [hstage1, exBind_ok, hstage2, hstage3, hstage4]
  · rw [moveState_balances_src _ _ _ _ hsd, hs3, hnet]
    omega
  · rw [moveState_balances_dst _ _ _ _ hsd]
    have hdst : (ERC20.moveState (SecureToken._addReflectionReward c
        (ERC20.moveState
          (ERC20.burnState s sender (SecureToken.burnPart c sender amount))
          sender c.thisAddr (SecureToken.reflectPart c sender amount)) dest
        (SecureToken.reflectPart c sender amount)) sender c.taxWallet
        (SecureToken.taxPart c sender amount)).balances dest =
        s.balances dest := by
      have hbase : (SecureToken._addReflectionReward c
          (ERC20.moveState
            (ERC20.burnState s sender (SecureToken.burnPart c sender amount))
            sender c.thisAddr (SecureToken.reflectPart c sender amount)) dest
          (SecureToken.reflectPart c sender amount)).balances dest =
          s.balances dest := by
        rw [addReflection_balances,
          moveState_balances_other _ _ _ _ _ (Ne.symm hsd) hdthis,
          burnState_balances_other _ _ _ _ (Ne.symm hsd)]
      by_cases htpos : 0 < SecureToken.taxPart c sender amount
      · rw [moveState_balances_other _ _ _ _ _ (Ne.symm hsd) (htw htpos).1,
          hbase]
      · have ht0 : SecureToken.taxPart c sender amount = 0 := by omega
        rw [ht0, moveState_zero, hbase]
    rw [hdst]
  · rw [moveState_balances_other _ _ _ _ _ (Ne.symm hsthis) (Ne.symm hdthis)]
    have hbase : (SecureToken._addReflectionReward c
        (ERC20.moveState
          (ERC20.burnState s sender (SecureToken.burnPart c sender amount))
          sender c.thisAddr (SecureToken.reflectPart c sender amount)) dest
        (SecureToken.reflectPart c sender amount)).balances c.thisAddr =
        s.balances c.thisAddr + SecureToken.reflectPart c sender amount := by
      rw [addReflection_balances, moveState_balances_dst _ _ _ _ hsthis,
        burnState_balances_other _ _ _ _ (Ne.symm hsthis)]
    by_cases htpos : 0 < SecureToken.taxPart c sender amount
    · rw [moveState_balances_other _ _ _ _ _ (Ne.symm hsthis)
        (htw htpos).2, hbase]
    · have ht0 : SecureToken.taxPart c sender amount = 0 := by omega
      rw [ht0, moveState_zero, hbase]
  · intro htpos
    obtain ⟨_, _, hstw⟩ := taxPart_pos_inv c sender amount htpos
    obtain ⟨hdtw, hthistw⟩ := htw htpos
    rw [moveState_balances_other _ _ _ _ _ (Ne.symm hstw) (Ne.symm hdtw)]
    rw [moveState_balances_dst _ _ _ _ hstw]
    rw [addReflection_balances,
      moveState_balances_other _ _ _ _ _ (Ne.symm hstw) (Ne.symm hthistw),
      burnState_balances_other _ _ _ _ (Ne.symm hstw)]
  · simp [ERC20.moveState, addReflection_totalSupply, ERC20.burnState]
  · intro x hxs hxd hxthis hxtw
    rw [moveState_balances_other _ _ _ _ _ hxs hxd]
    have hbase : (SecureToken._addReflectionReward c
        (ERC20.moveState
          (ERC20.burnState s sender (SecureToken.burnPart c sender amount))
          sender c.thisAddr (SecureToken.reflectPart c sender amount)) dest
        (SecureToken.reflectPart c sender amount)).balances x =
        s.balances x := by
      rw [addReflection_balances,
        moveState_balances_other _ _ _ _ _ hxs hxthis,
        burnState_balances_other _ _ _ _ hxs]
    by_cases htpos : 0 < SecureToken.taxPart c sender amount
    · rw [moveState_balances_other _ _ _ _ _ hxs (hxtw htpos), hbase]
    · have ht0 : SecureToken.taxPart c sender amount = 0 := by omega
      rw [ht0, moveState_zero, hbase]

/-- The burn deduction never exceeds the amount when the burn percent is
sane. -/
theorem burnPart_le (c : Config) (sender : Addr) (amount : Nat)
    (h : c.burnPercent ≤ 100) :
    SecureToken.burnPart c sender amount ≤ amount := by
  unfold SecureToken.burnPart
  split
  · exact pct_le _ _ h
  · exact Nat.zero_le _

/-- The reflection deduction never exceeds the post-burn net when the
reflection percent is sane. -/
theorem reflectPart_le (c : Config) (sender : Addr) (amount : Nat)
    (h : c.reflectionPercent ≤ 100) :
    SecureToken.reflectPart c sender amount ≤
      amount - SecureToken.burnPart c sender amount := by
  unfold SecureToken.reflectPart
  split
  · exact pct_le _ _ h
  · exact Nat.zero_le _

/-- The tax deduction never exceeds the post-burn-post-reflection net when
the tax percent is sane. -/
theorem taxPart_le (c : Config) (sender : Addr) (amount : Nat)
    (h : c.taxPercent ≤ 100) :
    SecureToken.taxPart c sender amount ≤
      amount - SecureToken.burnPart c sender amount -
        SecureToken.reflectPart c sender amount := by
  unfold SecureToken.taxPart
  split
  · exact pct_le _ _ h
  · exact Nat.zero_le _

/-- C2: with burn, reflection and tax all applicable, the fee cascade is
computed in this exact order with integer floor division —
`burnAmt = floor(amount * burnPercent / 100)` off the original amount,
`reflectAmt = floor((amount - burnAmt) * reflectionPercent / 100)` off the
post-burn net, `taxAmt` as the tax percent of the
post-burn-post-reflection net — and the recipient receives the final net
while the reserve, tax wallet, sender and supply change accordingly. -/
theorem transfer_fee_cascade (c : Config) (s : State) (sender dest : Addr)
    (amount : Nat)
    (hB : c.hasBurn = true) (hR : c.hasReflection = true)
    (hT : 0 < c.taxPercent) (hTW : c.taxWallet ≠ 0)
    (hsTW : sender ≠ c.taxWallet)
    (hB100 : c.burnPercent ≤ 100) (hR100 : c.reflectionPercent ≤ 100)
    (hT100 : c.taxPercent ≤ 100)
    (hs0 : sender ≠ 0) (hd0 : dest ≠ 0) (hthis0 : c.thisAddr ≠ 0)
    (hsthis : sender ≠ c.thisAddr) (hsd : sender ≠ dest)
    (hdthis : dest ≠ c.thisAddr) (hdtw : dest ≠ c.taxWallet)
    (hthistw : c.thisAddr ≠ c.taxWallet)
    (hbal : amount ≤ s.balances sender) :
    SecureToken.burnPart c sender amount = amount * c.burnPercent / 100 ∧
    SecureToken.reflectPart c sender amount =
      (amount - SecureToken.burnPart c sender amount) *
        c.reflectionPercent / 100 ∧
    SecureToken.taxPart c sender amount =
      (amount - SecureToken.burnPart c sender amount -
        SecureToken.reflectPart c sender amount) * c.taxPercent / 100 ∧
    SecureToken.netPart c sender amount =
      amount - SecureToken.burnPart c sender amount -
        SecureToken.reflectPart c sender amount -
        SecureToken.taxPart c sender amount ∧
    ∃ s', SecureToken.transfer c s sender dest amount = Except.ok s' ∧
      s'.balances dest = s.balances dest + SecureToken.netPart c sender amount ∧
      s'.balances c.thisAddr = s.balances c.thisAddr +
        SecureToken.reflectPart c sender amount ∧
      s'.balances c.taxWallet = s.balances c.taxWallet +
        SecureToken.taxPart c sender amount ∧
      s'.balances sender = s.balances sender - amount ∧
      s'.totalSupply = s.totalSupply - SecureToken.burnPart c sender amount := by
  have hb : SecureToken.burnPart c sender amount =
      amount * c.burnPercent / 100 := by
    unfold SecureToken.burnPart
    rw [if_pos ⟨hB, hs0⟩]
  have hr : SecureToken.reflectPart c sender amount =
      (amount - SecureToken.burnPart c sender amount) *
        c.reflectionPercent / 100 := by
    unfold SecureToken.reflectPart
    rw [if_pos ⟨hR, hs0⟩]
  have ht : SecureToken.taxPart c sender amount =
      (amount - SecureToken.burnPart c sender amount -
        SecureToken.reflectPart c sender amount) * c.taxPercent / 100 := by
    unfold SecureToken.taxPart
    rw [if_pos ⟨hT, hTW, hsTW⟩]
  obtain ⟨s', hrun, hsend, hdst, hthis, htax, hsupply, hframe⟩ :=
    transfer_exec c s sender dest amount hs0 hd0 hthis0 hsthis hsd hdthis
      (fun _ => ⟨hdtw, hthistw⟩) (burnPart_le c sender amount hB100)
      (reflectPart_le c sender amount hR100) (taxPart_le c sender amount hT100)
      hbal
  refine ⟨hb, hr, ht, rfl, s', hrun, hdst, hthis, ?_, hsend, hsupply⟩
  by_cases htpos : 0 < SecureToken.taxPart c sender amount
  · exact htax htpos
  · have ht0 : SecureToken.taxPart c sender amount = 0 := by omega
    rw [ht0, Nat.add_zero]
    exact hframe c.taxWallet (Ne.symm hsTW) (Ne.symm hdtw) (Ne.symm hthistw)
      (fun hpos => absurd hpos htpos)

/-- Witness for C2: on the all-fees-applicable example ledger, transferring
1000 from holder 2 to account 3 burns 100, pools 90 as reflection, taxes
81 and delivers 729. -/
theorem transfer_fee_cascade_witness :
    (SecureToken.burnPart exCfg 2 1000 = 100 ∧
      SecureToken.reflectPart exCfg 2 1000 = 90 ∧
      SecureToken.taxPart exCfg 2 1000 = 81 ∧
      SecureToken.netPart exCfg 2 1000 = 729) ∧
    (SecureToken.burnPart exCfg 2 1000 = 1000 * exCfg.burnPercent / 100 ∧
    SecureToken.reflectPart exCfg 2 1000 =
      (1000 - SecureToken.burnPart exCfg 2 1000) *
        exCfg.reflectionPercent / 100 ∧
    SecureToken.taxPart exCfg 2 1000 =
      (1000 - SecureToken.burnPart exCfg 2 1000 -
        SecureToken.reflectPart exCfg 2 1000) * exCfg.taxPercent / 100 ∧
    SecureToken.netPart exCfg 2 1000 =
      1000 - SecureToken.burnPart exCfg 2 1000 -
        SecureToken.reflectPart exCfg 2 1000 -
        SecureToken.taxPart exCfg 2 1000 ∧
    ∃ s', SecureToken.transfer exCfg exState 2 3 1000 = Except.ok s' ∧
      s'.balances 3 = exState.balances 3 + SecureToken.netPart exCfg 2 1000 ∧
      s'.balances exCfg.thisAddr = exState.balances exCfg.thisAddr +
        SecureToken.reflectPart exCfg 2 1000 ∧
      s'.balances exCfg.taxWallet = exState.balances exCfg.taxWallet +
        SecureToken.taxPart exCfg 2 1000 ∧
      s'.balances 2 = exState.balances 2 - 1000 ∧
      s'.totalSupply = exState.totalSupply - SecureToken.burnPart exCfg 2 1000) :=
  ⟨by decide,
    transfer_fee_cascade exCfg exState 2 3 1000 rfl rfl (by decide) (by decide)
      (by decide) (by decide) (by decide) (by decide) (by decide) (by decide)
      (by decide) (by decide) (by decide) (by decide) (by decide) (by decide)
      (by decide)⟩

/-- C8: a transfer whose sender is the configured tax account never
deducts tax and moves no tokens to the tax account as tax, regardless of
`taxPercent`, while the burn and reflection deductions still apply
whenever their features are enabled. -/
theorem tax_self_exemption (c : Config) (s : State) (sender dest : Addr)
    (amount : Nat)
    (hsw : sender = c.taxWallet)
    (hB100 : c.burnPercent ≤ 100) (hR100 : c.reflectionPercent ≤ 100)
    (hs0 : sender ≠ 0) (hd0 : dest ≠ 0) (hthis0 : c.thisAddr ≠ 0)
    (hsthis : sender ≠ c.thisAddr) (hsd : sender ≠ dest)
    (hdthis : dest ≠ c.thisAddr)
    (hbal : amount ≤ s.balances sender) :
    SecureToken.taxPart c sender amount = 0 ∧
    SecureToken.burnPart c sender amount =
      (if c.hasBurn then amount * c.burnPercent / 100 else 0) ∧
    SecureToken.reflectPart c sender amount =
      (if c.hasReflection then
        (amount - SecureToken.burnPart c sender amount) *
          c.reflectionPercent / 100 else 0) ∧
    ∃ s', SecureToken.transfer c s sender dest amount = Except.ok s' ∧
      s'.balances dest = s.balances dest +
        (amount - SecureToken.burnPart c sender amount -
          SecureToken.reflectPart c sender amount) ∧
      s'.balances c.thisAddr = s.balances c.thisAddr +
        SecureToken.reflectPart c sender amount ∧
      s'.balances sender = s.balances sender - amount ∧
      s'.totalSupply = s.totalSupply - SecureToken.burnPart c sender amount := by
  have ht0 : SecureToken.taxPart c sender amount = 0 := by
    unfold SecureToken.taxPart
    rw [if_neg (fun h => h.2.2 hsw)]
  have hbform : SecureToken.burnPart c sender amount =
      (if c.hasBurn then amount * c.burnPercent / 100 else 0) := by
    unfold SecureToken.burnPart
    by_cases hB : c.hasBurn = true
    · rw [if_pos ⟨hB, hs0⟩, if_pos hB]
    · rw [if_neg (fun h => hB h.1), if_neg hB]
  have hrform : SecureToken.reflectPart c sender amount =
      (if c.hasReflection then
        (amount - SecureToken.burnPart c sender amount) *
          c.reflectionPercent / 100 else 0) := by
    unfold SecureToken.reflectPart
    by_cases hR : c.hasReflection = true
    · rw [if_pos ⟨hR, hs0⟩, if_pos hR]
    · rw [if_neg (fun h => hR h.1), if_neg hR]
  have hnp : SecureToken.netPart c sender amount =
      amount - SecureToken.burnPart c sender amount -
        SecureToken.reflectPart c sender amount := by
    unfold SecureToken.netPart
    rw [ht0]
    omega
  obtain ⟨s', hrun, hsend, hdst, hthis, _, hsupply, _⟩ :=
    transfer_exec c s sender dest amount hs0 hd0 hthis0 hsthis hsd hdthis
      (fun hpos => absurd (ht0 ▸ hpos) (lt_irrefl 0))
      (burnPart_le c sender amount hB100)
      (reflectPart_le c sender amount hR100)
      (by rw [ht0]; exact Nat.zero_le _)
      hbal
  rw [hnp] at hdst
  exact ⟨ht0, hbform, hrform, s', hrun, hdst, hthis, hsend, hsupply⟩

/-- Witness for C8: on the example ledger whose tax wallet is the sender
itself (account 2), transferring 1000 burns 100 and pools 90 but taxes
nothing, delivering 810. -/
theorem tax_self_exemption_witness :
    (SecureToken.taxPart exCfgTW 2 1000 = 0 ∧
      1000 - SecureToken.burnPart exCfgTW 2 1000 -
        SecureToken.reflectPart exCfgTW 2 1000 = 810) ∧
    (SecureToken.taxPart exCfgTW 2 1000 = 0 ∧
    SecureToken.burnPart exCfgTW 2 1000 =
      (if exCfgTW.hasBurn then 1000 * exCfgTW.burnPercent / 100 else 0) ∧
    SecureToken.reflectPart exCfgTW 2 1000 =
      (if exCfgTW.hasReflection then
        (1000 - SecureToken.burnPart exCfgTW 2 1000) *
          exCfgTW.reflectionPercent / 100 else 0) ∧
    ∃ s', SecureToken.transfer exCfgTW exState 2 3 1000 = Except.ok s' ∧
      s'.balances 3 = exState.balances 3 +
        (1000 - SecureToken.burnPart exCfgTW 2 1000 -
          SecureToken.reflectPart exCfgTW 2 1000) ∧
      s'.balances exCfgTW.thisAddr = exState.balances exCfgTW.thisAddr +
        SecureToken.reflectPart exCfgTW 2 1000 ∧
      s'.balances 2 = exState.balances 2 - 1000 ∧
      s'.totalSupply = exState.totalSupply -
        SecureToken.burnPart exCfgTW 2 1000) :=
  ⟨by decide,
    tax_self_exemption exCfgTW exState 2 3 1000 (by decide) (by decide)
      (by decide) (by decide) (by decide) (by decide) (by decide) (by decide)
      (by decide) (by decide)⟩

/-- C6: a transfer of more than the sender's balance fails with the
ERC-20 insufficient-balance error: whichever sub-movement of the
burn/reflection/tax/net cascade first overdraws the sender aborts the
call, and in this functional embedding a failed `transfer` returns no new
state, so no sub-movement is ever committed alone — even though the burn
step alone might have been payable.  The side conditions say the sender
is a real external account (nonzero and not the token contract itself)
and the recipient is a valid account, as the spec's preconditions
require. -/
theorem transfer_insufficient_balance_fails (c : Config) (s : State)
    (sender dest : Addr) (amount : Nat)
    (hB100 : c.burnPercent ≤ 100) (hR100 : c.reflectionPercent ≤ 100)
    (hT100 : c.taxPercent ≤ 100)
    (hs0 : sender ≠ 0) (hd0 : dest ≠ 0) (hthis0 : c.thisAddr ≠ 0)
    (hsthis : sender ≠ c.thisAddr)
    (hlt : s.balances sender < amount) :
    SecureToken.transfer c s sender dest amount =
      Except.error "ERC20InsufficientBalance" := by
  have hble := burnPart_le c sender amount hB100
  have hrle := reflectPart_le c sender amount hR100
  have htle := taxPart_le c sender amount hT100
  have hnetdef : SecureToken.netPart c sender amount =
      amount - SecureToken.burnPart c sender amount -
        SecureToken.reflectPart c sender amount -
        SecureToken.taxPart c sender amount := rfl
  simp only [SecureToken.transfer]
  rw [show (if c.hasBurn ∧ sender ≠ 0 then amount * c.burnPercent / 100
      else 0) = SecureToken.burnPart c sender amount from rfl]
  rw [show (if c.hasReflection ∧ sender ≠ 0 then
      (amount - SecureToken.burnPart c sender amount) *
        c.reflectionPercent / 100 else 0) =
      SecureToken.reflectPart c sender amount from rfl]
  rw [show (if 0 < c.taxPercent ∧ c.taxWallet ≠ 0 ∧ sender ≠ c.taxWallet
      then (amount - SecureToken.burnPart c sender amount -
        SecureToken.reflectPart c sender amount) * c.taxPercent / 100
      else 0) = SecureToken.taxPart c sender amount from rfl]
  rw [show amount - SecureToken.burnPart c sender amount -
      SecureToken.reflectPart c sender amount -
      SecureToken.taxPart c sender amount =
      SecureToken.netPart c sender amount from rfl]
  by_cases h1 : s.balances sender < SecureToken.burnPart c sender amount
  · rw [if_pos (show 0 < SecureToken.burnPart c sender amount by omega)]
    rw [update_err s sender 0 _ hs0 h1]
    rfl
  · push_neg at h1
    have hst1 := stage_burn s sender (SecureToken.burnPart c sender amount)
      hs0 h1
    simp only [hst1, exBind_ok]
    have hbal1 : (ERC20.burnState s sender
        (SecureToken.burnPart c sender amount)).balances sender =
        s.balances sender - SecureToken.burnPart c sender amount :=
      burnState_balances_src s sender _
    by_cases h2 : (ERC20.burnState s sender
        (SecureToken.burnPart c sender amount)).balances sender <
        SecureToken.reflectPart c sender amount
    · rw [hbal1] at h2
      rw [if_pos (show 0 < SecureToken.reflectPart c sender amount by omega)]
      rw [transfer_err _ sender c.thisAddr _ hs0 hthis0 (by rw [hbal1]; omega)]
      rfl
    · push_neg at h2
      rw [hbal1] at h2
      have hst2 := stage_reflect c
        (ERC20.burnState s sender (SecureToken.burnPart c sender amount))
        sender dest (SecureToken.reflectPart c sender amount) hs0 hthis0
        (by rw [hbal1]; omega)
      simp only [hst2, exBind_ok]
      have hbal2 : (SecureToken._addReflectionReward c
          (ERC20.moveState
            (ERC20.burnState s sender (SecureToken.burnPart c sender amount))
            sender c.thisAddr (SecureToken.reflectPart c sender amount)) dest
          (SecureToken.reflectPart c sender amount)).balances sender =
          s.balances sender - SecureToken.burnPart c sender amount -
            SecureToken.reflectPart c sender amount := by
        rw [addReflection_balances, moveState_balances_src _ _ _ _ hsthis,
          hbal1]
      by_cases h3 : (SecureToken._addReflectionReward c
          (ERC20.moveState
            (ERC20.burnState s sender (SecureToken.burnPart c sender amount))
            sender c.thisAddr (SecureToken.reflectPart c sender amount)) dest
          (SecureToken.reflectPart c sender amount)).balances sender <
          SecureToken.taxPart c sender amount
      · rw [hbal2] at h3
        have htpos : 0 < SecureToken.taxPart c sender amount := by omega
        rw [if_pos htpos]
        rw [transfer_err _ sender c.taxWallet _ hs0
          (taxPart_pos_inv c sender amount htpos).2.1 (by rw [hbal2]; omega)]
        rfl
      · push_neg at h3
        rw [hbal2] at h3
        have hst3 := stage_move (SecureToken._addReflectionReward c
            (ERC20.moveState
              (ERC20.burnState s sender (SecureToken.burnPart c sender amount))
              sender c.thisAddr (SecureToken.reflectPart c sender amount)) dest
            (SecureToken.reflectPart c sender amount)) sender c.taxWallet
            (SecureToken.taxPart c sender amount) hs0
            (fun hpos => (taxPart_pos_inv c sender amount hpos).2.1)
            (by rw [hbal2]; omega)
        simp only [hst3, exBind_ok]
        have hbal3 : (ERC20.moveState (SecureToken._addReflectionReward c
            (ERC20.moveState
              (ERC20.burnState s sender (SecureToken.burnPart c sender amount))
              sender c.thisAddr (SecureToken.reflectPart c sender amount)) dest
            (SecureToken.reflectPart c sender amount)) sender c.taxWallet
            (SecureToken.taxPart c sender amount)).balances sender =
            s.balances sender - SecureToken.burnPart c sender amount -
              SecureToken.reflectPart c sender amount -
              SecureToken.taxPart c sender amount := by
          by_cases htpos : 0 < SecureToken.taxPart c sender amount
          · rw [moveState_balances_src _ _ _ _
              (taxPart_pos_inv c sender amount htpos).2.2, hbal2]
          · have ht00 : SecureToken.taxPart c sender amount = 0 := by omega
            rw [ht00, moveState_zero, hbal2]
            omega
        exact transfer_err _ sender dest _ hs0 hd0
          (by rw [hbal3, hnetdef]; omega)

/-- Witness for C6: transferring 2000 from a holder of 1000 fails with
the insufficient-balance error. -/
theorem transfer_insufficient_balance_fails_witness :
    (exState.balances 2 < 2000) ∧
    SecureToken.transfer exCfg exState 2 3 2000 =
      Except.error "ERC20InsufficientBalance" :=
  ⟨by decide,
    transfer_insufficient_balance_fails exCfg exState 2 3 2000 (by decide)
      (by decide) (by decide) (by decide) (by decide) (by decide) (by decide)
      (by decide)⟩

/-- C10: after the allowance spend, `transferFrom` performs exactly the
same burn/reflection/tax cascade, with the same ordering, floor divisions,
tax self-exemption and resulting state changes, as a direct `transfer`
with `from` in the sender role — the two embedded transfer paths are
equivalent in their effect on ledger state. -/
theorem transferFrom_refines_transfer (c : Config) (s : State)
    (spender a b : Addr) (amount : Nat) :
    SecureToken.transferFrom c s spender a b amount =
      (ERC20._spendAllowance s a spender amount) >>=
        (fun s1 => SecureToken.transfer c s1 a b amount) := rfl

/-- Updating one point of a balance book changes its total by the
difference. -/
theorem sum_update_nat (A : Finset Addr) (f : Addr → Nat) (a : Addr)
    (ha : a ∈ A) (v : Nat) :
    A.sum (Function.update f a v) + f a = A.sum f + v := by
  rw [Finset.sum_update_of_mem ha]
  have h2 := Finset.add_sum_erase A f ha
  rw [Finset.erase_eq] at h2
  have h3 : A.sum f = ∑ x ∈ A, f x := rfl
  have h4 : A.sum (Function.update f a v) =
      ∑ x ∈ A, Function.update f a v x := rfl
  omega

/-- A checked burn preserves the balance-book invariant over the footprint
enlarged by the debited account. -/
theorem balInv_burnState (s : State) (A : Finset Addr) (a : Addr) (v : Nat)
    (h : BalInv s A) (ha : a ≠ 0) (hv : v ≤ s.balances a) :
    BalInv (ERC20.burnState s a v) (insert a A) := by
  obtain ⟨h0, hsupp, hsum⟩ := h
  have hmem : a ∈ insert a A := Finset.mem_insert_self a A
  have hsub : A ⊆ insert a A := Finset.subset_insert a A
  have hsumIA : (insert a A).sum s.balances = s.totalSupply := by
    rw [← hsum]
    exact (Finset.sum_subset hsub (fun x _ hx => hsupp x hx)).symm
  have hbound : s.balances a ≤ s.totalSupply := by
    rw [← hsumIA]
    exact Finset.single_le_sum (fun i _ => Nat.zero_le _) hmem
  refine ⟨?_, ?_, ?_⟩
  · intro h0'
    rcases Finset.mem_insert.mp h0' with he | he
    · exact ha he.symm
    · exact h0 he
  · intro x hx
    have hxa : x ≠ a := fun he => hx (he ▸ hmem)
    have hxA : x ∉ A := fun he => hx (Finset.mem_insert_of_mem he)
    rw [burnState_balances_other _ _ _ _ hxa]
    exact hsupp x hxA
  · have hkey := sum_update_nat (insert a A) s.balances a hmem
      (s.balances a - v)
    have hb : (ERC20.burnState s a v).balances =
        Function.update s.balances a (s.balances a - v) := rfl
    have ht : (ERC20.burnState s a v).totalSupply = s.totalSupply - v := rfl
    rw [hb, ht]
    omega

/-- A checked movement preserves the balance-book invariant over the
footprint enlarged by the two involved accounts. -/
theorem balInv_moveState (s : State) (A : Finset Addr) (a b : Addr) (v : Nat)
    (h : BalInv s A) (ha : a ≠ 0) (hb : b ≠ 0) (hv : v ≤ s.balances a) :
    BalInv (ERC20.moveState s a b v) (insert a (insert b A)) := by
  obtain ⟨h0, hsupp, hsum⟩ := h
  have hmema : a ∈ insert a (insert b A) := Finset.mem_insert_self a _
  have hmemb : b ∈ insert a (insert b A) :=
    Finset.mem_insert_of_mem (Finset.mem_insert_self b A)
  have hsub : A ⊆ insert a (insert b A) :=
    (Finset.subset_insert b A).trans (Finset.subset_insert a _)
  have hsumB : (insert a (insert b A)).sum s.balances = s.totalSupply := by
    rw [← hsum]
    exact (Finset.sum_subset hsub (fun x _ hx => hsupp x hx)).symm
  have hbound : s.balances a ≤ s.totalSupply := by
    rw [← hsumB]
    exact Finset.single_le_sum (fun i _ => Nat.zero_le _) hmema
  refine ⟨?_, ?_, ?_⟩
  · intro h0'
    rcases Finset.mem_insert.mp h0' with he | he
    · exact ha he.symm
    · rcases Finset.mem_insert.mp he with he' | he'
      · exact hb he'.symm
      · exact h0 he'
  · intro x hx
    have hxa : x ≠ a := fun he => hx (he ▸ hmema)
    have hxb : x ≠ b := fun he => hx (he ▸ hmemb)
    have hxA : x ∉ A := fun he =>
      hx (Finset.mem_insert_of_mem (Finset.mem_insert_of_mem he))
    rw [moveState_balances_other _ _ _ _ _ hxa hxb]
    exact hsupp x hxA
  · have h1 := sum_update_nat (insert a (insert b A)) s.balances a hmema
      (s.balances a - v)
    have h2 := sum_update_nat (insert a (insert b A))
      (Function.update s.balances a (s.balances a - v)) b hmemb
      ((Function.update s.balances a (s.balances a - v)) b + v)
    have hmb : (ERC20.moveState s a b v).balances =
        Function.update (Function.update s.balances a (s.balances a - v)) b
          ((Function.update s.balances a (s.balances a - v)) b + v) := rfl
    have hmt : (ERC20.moveState s a b v).totalSupply = s.totalSupply := rfl
    rw [hmb, hmt]
    omega

/-- The balance-book invariant ignores the reflection credit fields. -/
theorem balInv_addR (c : Config) (s : State) (h : Addr) (v : Nat)
    (A : Finset Addr) :
    BalInv (SecureToken._addReflectionReward c s h v) A ↔ BalInv s A := by
  unfold BalInv
  rw [addReflection_balances, addReflection_totalSupply]

/-- A positive computed burn deduction means the sender is nonzero. -/
theorem burnPart_pos_sender (c : Config) (sender : Addr) (amount : Nat)
    (h : 0 < SecureToken.burnPart c sender amount) : sender ≠ 0 := by
  intro h0
  unfold SecureToken.burnPart at h
  rw [if_neg (fun hg => hg.2 h0)] at h
  exact Nat.lt_irrefl 0 h

/-- Tail of the transfer cascade (tax stage then final movement) preserves
the balance-book invariant and the supply. -/
theorem step3_inv (s s' : State) (sender tw dest : Addr) (t net : Nat)
    (A : Finset Addr) (h : BalInv s A)
    (hok : ((if 0 < t then ERC20._transfer s sender tw t else pure s) >>=
      fun s => ERC20._transfer s sender dest net) = Except.ok s') :
    ∃ B, BalInv s' B ∧ s'.totalSupply = s.totalSupply := by
  by_cases htpos : 0 < t
  · rw [if_pos htpos] at hok
    cases hu : ERC20._transfer s sender tw t with
    | error e =>
      simp only [hu, exBind_err] at hok
      exact Except.noConfusion hok
    | ok s3 =>
      simp only [hu, exBind_ok] at hok
      obtain ⟨ha, hb, hv, heq⟩ := transfer_ok_inv _ _ _ _ _ hu
      obtain ⟨ha', hb', hv', heq'⟩ := transfer_ok_inv _ _ _ _ _ hok
      refine ⟨insert sender (insert dest (insert sender (insert tw A))),
        ?_, ?_⟩
      · rw [heq']
        exact balInv_moveState s3 _ sender dest net
          (heq ▸ balInv_moveState s A sender tw t h ha hb hv) ha' hb' hv'
      · rw [heq', heq]
        rfl
  · rw [if_neg htpos] at hok
    simp only [exPure, exBind_ok] at hok
    obtain ⟨ha, hb, hv, heq⟩ := transfer_ok_inv _ _ _ _ _ hok
    refine ⟨insert sender (insert dest A), ?_, ?_⟩
    · rw [heq]
      exact balInv_moveState s A sender dest net h ha hb hv
    · rw [heq]
      rfl

/-- Tail of the transfer cascade from the reflection stage on preserves
the balance-book invariant and the supply. -/
theorem step2_inv (c : Config) (s s' : State) (sender dest : Addr)
    (r t net : Nat) (A : Finset Addr) (h : BalInv s A)
    (hok : ((if 0 < r then do
        let u ← ERC20._transfer s sender c.thisAddr r
        pure (SecureToken._addReflectionReward c u dest r)
      else pure s) >>= fun s =>
      (if 0 < t then ERC20._transfer s sender c.taxWallet t else pure s) >>=
      fun s => ERC20._transfer s sender dest net) = Except.ok s') :
    ∃ B, BalInv s' B ∧ s'.totalSupply = s.totalSupply := by
  by_cases hrpos : 0 < r
  · rw [if_pos hrpos] at hok
    cases hu : ERC20._transfer s sender c.thisAddr r with
    | error e =>
      simp only [hu, exBind_err] at hok
      exact Except.noConfusion hok
    | ok u =>
      simp only [hu, exBind_ok, exPure] at hok
      obtain ⟨ha, hb, hv, hueq⟩ := transfer_ok_inv _ _ _ _ _ hu
      have hinv : BalInv (SecureToken._addReflectionReward c u dest r)
          (insert sender (insert c.thisAddr A)) :=
        (balInv_addR c u dest r _).mpr
          (hueq ▸ balInv_moveState s A sender c.thisAddr r h ha hb hv)
      have hsup : (SecureToken._addReflectionReward c u dest r).totalSupply =
          s.totalSupply := by
        rw [addReflection_totalSupply, hueq]
        rfl
      obtain ⟨B, hB, hsupB⟩ := step3_inv _ s' sender c.taxWallet dest t net _
        hinv hok
      exact ⟨B, hB, by omega⟩
  · rw [if_neg hrpos] at hok
    simp only [exPure, exBind_ok] at hok
    exact step3_inv s s' sender c.taxWallet dest t net A h hok

/-- A successful transfer preserves the balance-book invariant and never
increases the supply (it decreases it by exactly the burn deduction). -/
theorem transferStep_inv (c : Config) (s s' : State) (sender dest : Addr)
    (amount : Nat) (A : Finset Addr) (h : BalInv s A)
    (hok : SecureToken.transfer c s sender dest amount = Except.ok s') :
    ∃ B, BalInv s' B ∧ s'.totalSupply ≤ s.totalSupply := by
  simp only [SecureToken.transfer] at hok
  rw [show (if c.hasBurn ∧ sender ≠ 0 then amount * c.burnPercent / 100
      else 0) = SecureToken.burnPart c sender amount from rfl] at hok
  rw [show (if c.hasReflection ∧ sender ≠ 0 then
      (amount - SecureToken.burnPart c sender amount) *
        c.reflectionPercent / 100 else 0) =
      SecureToken.reflectPart c sender amount from rfl] at hok
  rw [show (if 0 < c.taxPercent ∧ c.taxWallet ≠ 0 ∧ sender ≠ c.taxWallet
      then (amount - SecureToken.burnPart c sender amount -
        SecureToken.reflectPart c sender amount) * c.taxPercent / 100
      else 0) = SecureToken.taxPart c sender amount from rfl] at hok
  rw [show amount - SecureToken.burnPart c sender amount -
      SecureToken.reflectPart c sender amount -
      SecureToken.taxPart c sender amount =
      SecureToken.netPart c sender amount from rfl] at hok
  by_cases hbpos : 0 < SecureToken.burnPart c sender amount
  · rw [if_pos hbpos] at hok
    have hs0 : sender ≠ 0 := burnPart_pos_sender c sender amount hbpos
    cases hu : ERC20._update s sender 0 (SecureToken.burnPart c sender amount)
      with
    | error e =>
      simp only [hu, exBind_err] at hok
      exact Except.noConfusion hok
    | ok s1 =>
      simp only [hu, exBind_ok] at hok
      obtain ⟨hv, hs1eq⟩ := update_ok_inv s s1 sender 0 _ hs0 hu
      rw [if_pos rfl] at hs1eq
      have hinv1 : BalInv s1 (insert sender A) :=
        hs1eq ▸ balInv_burnState s A sender _ h hs0 hv
      have hsup1 : s1.totalSupply =
          s.totalSupply - SecureToken.burnPart c sender amount := by
        rw [hs1eq]
        rfl
      obtain ⟨B, hB, hsupB⟩ := step2_inv c s1 s' sender dest _ _ _ _ hinv1 hok
      exact ⟨B, hB, by omega⟩
  · rw [if_neg hbpos] at hok
    simp only [exPure, exBind_ok] at hok
    obtain ⟨B, hB, hsupB⟩ := step2_inv c s s' sender dest _ _ _ A h hok
    exact ⟨B, hB, le_of_eq hsupB⟩

/-- A successful reflection claim (deployed contract variant, which pays
the per-transfer credit) preserves the balance-book invariant and the
supply. -/
theorem claimStep_inv (c : Config) (s s' : State) (holder paid : Nat)
    (A : Finset Addr) (h : BalInv s A)
    (hok : SecureToken.claimReflectionRewards c s holder =
      Except.ok (paid, s')) :
    ∃ B, BalInv s' B ∧ s'.totalSupply = s.totalSupply := by
  simp only [SecureToken.claimReflectionRewards] at hok
  by_cases h1 : ¬ (c.hasReflection = true)
  · rw [if_pos h1] at hok
    exact Except.noConfusion hok
  · rw [if_neg h1] at hok
    by_cases h2 : s.reflectionBalance holder = 0
    · rw [if_pos h2] at hok
      exact Except.noConfusion hok
    · rw [if_neg h2] at hok
      obtain ⟨hpaid, htr⟩ := bindPair_ok_inv _ _ _ _ hok
      obtain ⟨ha, hb, hv, heq⟩ := transfer_ok_inv _ _ _ _ _ htr
      have hinv2 : BalInv
          { s with reflectionBalance :=
            (Function.update s.reflectionBalance holder 0) } A := h
      refine ⟨insert c.thisAddr (insert holder A), ?_, ?_⟩
      · rw [heq]
        exact balInv_moveState _ A c.thisAddr holder _ hinv2 ha hb hv
      · rw [heq]
        rfl

/-- C3: for every state reachable by any sequence of create, transfer and
claim operations, the balances have a finite footprint whose sum equals
the current total supply (so the sum over any superset does too, the
reserve account included), the total supply never exceeds — and only
decreases from — the supply fixed at creation, and the sum of balances
plus the cumulative amount burned (`init - totalSupply`) equals the
initial supply. -/
theorem conservation_of_supply (c : Config) (init : Nat) (s : State)
    (hr : Reachable c init s) :
    ∃ A : Finset Addr, (0 : Addr) ∉ A ∧ (∀ x, x ∉ A → s.balances x = 0) ∧
      A.sum s.balances = s.totalSupply ∧ s.totalSupply ≤ init ∧
      A.sum s.balances + (init - s.totalSupply) = init := by
  suffices h : ∃ A, BalInv s A ∧ s.totalSupply ≤ init by
    obtain ⟨A, ⟨h0, hsupp, hsum⟩, hle⟩ := h
    exact ⟨A, h0, hsupp, hsum, hle, by omega⟩
  induction hr with
  | create a st ha hctor =>
    obtain ⟨_, _, _, ho, hsup, _, _, hbal, htot⟩ :=
      constructor_ok_inv a c st hctor
    refine ⟨{a.initialOwner}, ⟨?_, ?_, ?_⟩, ?_⟩
    · intro hmem
      rw [Finset.mem_singleton] at hmem
      exact ho hmem.symm
    · intro x hx
      rw [Finset.mem_singleton] at hx
      rw [hbal, Function.update_apply, if_neg hx]
    · rw [Finset.sum_singleton, hbal, Function.update_same, htot]
    · rw [htot, ha]
  | transfer s s' sender dest amount hreach hok ih =>
    obtain ⟨A, hinv, hle⟩ := ih
    obtain ⟨B, hB, hsup⟩ := transferStep_inv c s s' sender dest amount A hinv
      hok
    exact ⟨B, hB, le_trans hsup hle⟩
  | claim s s' holder paid hreach hok ih =>
    obtain ⟨A, hinv, hle⟩ := ih
    obtain ⟨B, hB, hsup⟩ := claimStep_inv c s s' holder paid A hinv hok
    exact ⟨B, hB, by omega⟩

/-- Witness for C3: the freshly deployed 1000-token ledger is reachable
and conserves its supply. -/
theorem conservation_of_supply_witness :
    ∃ A : Finset Addr, (0 : Addr) ∉ A ∧
      (∀ x, x ∉ A → consState.balances x = 0) ∧
      A.sum consState.balances = consState.totalSupply ∧
      consState.totalSupply ≤ 1000 ∧
      A.sum consState.balances + (1000 - consState.totalSupply) = 1000 :=
  conservation_of_supply consCfg 1000 consState
    (Reachable.create consArgs consState rfl rfl)

end TokenCreator
